import Mathlib

/-!
# Faucet Networking: a shallow embedding of `faucet/tcp/TcpSocket.cpp`

The socket object is a record of its C++ members.  Everything the operating
system or the asio reactor decides (whether a call throws, which bytes are
ready, which error code a completion carries) is an explicit argument of the
operation that consumes it.  Asynchronous operations handed to the reactor are
appended to the `started` log of the socket; completion handlers are ordinary
functions that a reactor model calls later.
-/

namespace Faucet

/-- One octet (`uint8_t`). -/
abbrev Byte := Fin 256

/-- A resolved candidate endpoint (`tcp::endpoint`), identified by a number. -/
abbrev Endpoint := Nat

/-- A `boost::system::error_code` seen through `message()`: `none` is success. -/
abbrev ErrorCode := Option String

/-- Largest `size_t` value, `std::numeric_limits<size_t>::max()`, on a 64-bit target. -/
def SIZE_MAX : Nat := 2 ^ 64 - 1

/-- Addition of two `size_t` values, which wraps at `SIZE_MAX + 1`. -/
def sizeAdd (a b : Nat) : Nat := (a + b) % (SIZE_MAX + 1)

/-- The message of `boost::asio::error::host_not_found`. -/
def hostNotFound : ErrorCode := some "Host not found (authoritative)"

/-- The lifecycle states of `TcpSocket::State`. -/
inductive State where
  | TCPSOCK_CONNECTING
  | TCPSOCK_CONNECTED
  | TCPSOCK_CLOSING
  | TCPSOCK_CLOSED
  | TCPSOCK_FAILED
  deriving DecidableEq, Repr

open State

/-- Modelled from the spec: the class `SendBuffer` (its header is not part of the
sources).  An ordered byte sequence split into a staged and a committed region. -/
structure SendBuffer where
  staged : List Byte
  committed : List Byte
  deriving DecidableEq, Repr

namespace SendBuffer

/-- Modelled from the spec: a freshly constructed `SendBuffer` holds nothing. -/
def empty : SendBuffer := ⟨[], []⟩

/-- Modelled from the spec: `SendBuffer::push` appends to the staged region. -/
def push (b : SendBuffer) (buffer : List Byte) : SendBuffer :=
  { b with staged := b.staged ++ buffer }

/-- Modelled from the spec: `SendBuffer::commit` moves all staged bytes to the
committed region, in order. -/
def commit (b : SendBuffer) : SendBuffer :=
  { staged := [], committed := b.committed ++ b.staged }

/-- Modelled from the spec: `SendBuffer::pop` removes the first `n` committed bytes. -/
def pop (b : SendBuffer) (n : Nat) : SendBuffer :=
  { b with committed := b.committed.drop n }

/-- Modelled from the spec: `SendBuffer::clear` empties both regions. -/
def clear (_b : SendBuffer) : SendBuffer := empty

/-- Modelled from the spec: `SendBuffer::committedSize`, the length of the committed region. -/
def committedSize (b : SendBuffer) : Nat := b.committed.length

/-- Modelled from the spec: `SendBuffer::totalSize` is staged plus committed. -/
def totalSize (b : SendBuffer) : Nat := b.staged.length + b.committed.length

end SendBuffer

/-- An asynchronous operation handed to the reactor, with the arguments bound
into its completion handler. -/
inductive AsyncOp where
  /-- The call `resolver_.async_resolve`, completing in `handleResolve`. -/
  | resolve
  /-- The call `socket_->async_connect(endpoint, ...)`, completing in `handleConnect`
  with the advanced iterator `rest`. -/
  | connect (endpoint : Endpoint) (rest : List Endpoint)
  /-- The call `socket_->async_write_some` over the committed region (its size at the
  call), completing in `handleSend`. -/
  | writeSome (offered : Nat)
  /-- The call `async_read` of exactly `ammount` bytes into the receive buffer at
  `index`, completing in `handleReceive`. -/
  | read (index : Nat) (ammount : Nat)
  deriving DecidableEq, Repr

/-- The members of `TcpSocket`.  `socketOpen` is `socket_->is_open()`;
`started` is the reactor side: every asynchronous operation this socket has
started, oldest first. -/
structure TcpSocket where
  socketOpen : Bool
  state_ : State
  errorMessage_ : String
  sendbuffer_ : SendBuffer
  sendbufferSizeLimit_ : Nat
  receiveBuffer_ : List Byte
  asyncSendInProgress_ : Bool
  asyncReceiveInProgress_ : Bool
  started : List AsyncOp
  deriving DecidableEq, Repr

/-- What the operating system does with the abortive-close sequence
`set_option(linger)`, `shutdown(shutdown_both)`, `close()` of `disconnect`. -/
inductive CloseOutcome where
  | ok
  | setOptionThrows (message : String)
  | shutdownThrows (message : String)
  | closeThrows (message : String)
  deriving DecidableEq, Repr

/-- What the operating system does inside `nonblockReceiveAvailable`. -/
inductive DrainOutcome where
  /-- The call `socket_->available()` throws. -/
  | availableThrows (message : String)
  /-- The call `available()` reports `available` bytes and `boost::asio::read` throws. -/
  | readThrows (available : Nat) (message : String)
  /-- The call `available()` reports `data.length` bytes and the read delivers `data`. -/
  | ok (data : List Byte)
  deriving DecidableEq, Repr

/-- What the operating system does with the non-blocking peek of `isEof`. -/
inductive PeekOutcome where
  /-- One of the two `io_control` calls throws. -/
  | ioControlThrows (message : String)
  /-- The peek reports `boost::asio::error::eof`. -/
  | eof
  /-- The peek reports `boost::asio::error::would_block`. -/
  | wouldBlock
  /-- The peek reports another error. -/
  | otherError (message : String)
  /-- The peek reports no error: a byte is available. -/
  | noError
  deriving DecidableEq, Repr

/-- The operating-system outcomes one call of `handleConnect` may consume. -/
structure ConnectEnv where
  /-- Outcome of `set_option(no_delay)` in `disableNagle`. -/
  nodelay : ErrorCode
  /-- Outcome of the one `socket_->close` the call may execute. -/
  close : ErrorCode
  /-- Whether `async_connect` managed to open the handle for the endpoint. -/
  opened : Bool
  deriving DecidableEq, Repr

namespace TcpSocket

/-- Method `TcpSocket::TcpSocket(State initialState)`.  The constructor gives the two
in-progress flags no initial value, so they are arguments. -/
def mk0 (initialState : State) (sendFlag recvFlag : Bool) : TcpSocket :=
  { socketOpen := false
    state_ := initialState
    errorMessage_ := ""
    sendbuffer_ := SendBuffer.empty
    sendbufferSizeLimit_ := SIZE_MAX
    receiveBuffer_ := []
    asyncSendInProgress_ := sendFlag
    asyncReceiveInProgress_ := recvFlag
    started := [] }

/-- Method `TcpSocket::isConnecting`. -/
def isConnecting (s : TcpSocket) : Bool := s.state_ == TCPSOCK_CONNECTING

/-- Method `TcpSocket::hasError`. -/
def hasError (s : TcpSocket) : Bool := s.state_ == TCPSOCK_FAILED

/-- Method `TcpSocket::getErrorMessage`. -/
def getErrorMessage (s : TcpSocket) : String := s.errorMessage_

/-- Method `TcpSocket::handleError`: keep the first message, close the handle
abortively ignoring new errors (asio releases the descriptor even when `close`
reports an error), clear both buffers. -/
def handleError (s : TcpSocket) (errorMessage : String) : TcpSocket :=
  let s1 :=
    if s.state_ ≠ TCPSOCK_FAILED then
      { s with state_ := TCPSOCK_FAILED, errorMessage_ := errorMessage }
    else s
  let s2 := if s1.socketOpen then { s1 with socketOpen := false } else s1
  { s2 with sendbuffer_ := s2.sendbuffer_.clear, receiveBuffer_ := [] }

/-- Method `TcpSocket::write(buffer, size)` with `size = buffer.length`; the sum in the
limit test is a `size_t` sum. -/
def write (s : TcpSocket) (buffer : List Byte) : TcpSocket :=
  if s.state_ = TCPSOCK_CONNECTED ∨ s.state_ = TCPSOCK_CONNECTING then
    if sizeAdd s.sendbuffer_.totalSize buffer.length > s.sendbufferSizeLimit_ then
      handleError s "The send buffer size limit was exceeded."
    else
      { s with sendbuffer_ := s.sendbuffer_.push buffer }
  else s

/-- Method `TcpSocket::getSendbufferSize`. -/
def getSendbufferSize (s : TcpSocket) : Nat := s.sendbuffer_.totalSize

/-- Method `TcpSocket::setSendbufferLimit`. -/
def setSendbufferLimit (s : TcpSocket) (maxSize : Nat) : TcpSocket :=
  { s with sendbufferSizeLimit_ := maxSize }

/-- Method `TcpSocket::startAsyncSend`. -/
def startAsyncSend (s : TcpSocket) : TcpSocket :=
  if !s.asyncSendInProgress_ then
    { s with asyncSendInProgress_ := true
             started := s.started ++ [AsyncOp.writeSome s.sendbuffer_.committedSize] }
  else s

/-- Method `TcpSocket::startAsyncReceive`. -/
def startAsyncReceive (s : TcpSocket) (ammount : Nat) : TcpSocket :=
  if !s.asyncReceiveInProgress_ then
    { s with asyncReceiveInProgress_ := true
             receiveBuffer_ := s.receiveBuffer_ ++ List.replicate ammount 0
             started := s.started ++ [AsyncOp.read s.receiveBuffer_.length ammount] }
  else s

/-- Method `TcpSocket::send`. -/
def send (s : TcpSocket) : TcpSocket :=
  if s.state_ = TCPSOCK_CONNECTED ∨ s.state_ = TCPSOCK_CONNECTING then
    let s1 := { s with sendbuffer_ := s.sendbuffer_.commit }
    if s1.state_ = TCPSOCK_CONNECTED then startAsyncSend s1 else s1
  else s

/-- Method `TcpSocket::disableNagle`; `nodelay` is the outcome of `set_option`. -/
def disableNagle (s : TcpSocket) (nodelay : ErrorCode) : TcpSocket :=
  match nodelay with
  | none => s
  | some message => handleError s message

/-- Method `TcpSocket::nonblockReceiveAvailable`.  The second component is the
message of the `system_error` the call throws, if it throws. -/
def nonblockReceiveAvailable (s : TcpSocket) (drain : DrainOutcome) :
    TcpSocket × Option String :=
  if s.asyncReceiveInProgress_ ∨ s.state_ ≠ TCPSOCK_CONNECTED then (s, none)
  else
    match drain with
    | DrainOutcome.availableThrows message => (s, some message)
    | DrainOutcome.readThrows available message =>
      ({ s with receiveBuffer_ := s.receiveBuffer_ ++ List.replicate available 0 },
        some message)
    | DrainOutcome.ok data => ({ s with receiveBuffer_ := s.receiveBuffer_ ++ data }, none)

/-- Method `TcpSocket::receive(size_t ammount)`.  The first component is the
returned `Buffer*`: `none` is the null pointer. -/
def receive (s : TcpSocket) (ammount : Nat) (drain : DrainOutcome) :
    Option (List Byte) × TcpSocket :=
  if s.asyncReceiveInProgress_ ∨ s.state_ ≠ TCPSOCK_CONNECTED then (none, s)
  else
    let r :=
      if s.receiveBuffer_.length < ammount then nonblockReceiveAvailable s drain
      else (s, none)
    match r with
    | (s1, some message) => (none, handleError s1 message)
    | (s1, none) =>
      if s1.receiveBuffer_.length ≥ ammount then
        (some (s1.receiveBuffer_.take ammount),
          { s1 with receiveBuffer_ := s1.receiveBuffer_.drop ammount })
      else
        let remaining := ammount - s1.receiveBuffer_.length
        (none, startAsyncReceive s1 remaining)

/-- Method `TcpSocket::receive()` without an amount.  The first component is the
content of the returned `Buffer`. -/
def receiveAny (s : TcpSocket) (drain : DrainOutcome) : List Byte × TcpSocket :=
  if s.asyncReceiveInProgress_ ∨ s.state_ ≠ TCPSOCK_CONNECTED then ([], s)
  else
    match nonblockReceiveAvailable s drain with
    | (s1, none) => (s1.receiveBuffer_, { s1 with receiveBuffer_ := [] })
    | (s1, some message) => ([], handleError s1 message)

/-- Method `TcpSocket::isEof`. -/
def isEof (s : TcpSocket) (peek : PeekOutcome) : Bool × TcpSocket :=
  match s.state_ with
  | TCPSOCK_CONNECTING => (false, s)
  | TCPSOCK_CONNECTED =>
    if s.receiveBuffer_.length > 0 ∨ s.asyncReceiveInProgress_ then (false, s)
    else
      match peek with
      | PeekOutcome.ioControlThrows message => (true, handleError s message)
      | PeekOutcome.eof => (true, s)
      | PeekOutcome.wouldBlock => (false, s)
      | PeekOutcome.otherError message => (true, handleError s message)
      | PeekOutcome.noError => (false, s)
  | _ => (true, s)

/-- Method `TcpSocket::disconnect`. -/
def disconnect (s : TcpSocket) (hard : Bool) (os : CloseOutcome) : TcpSocket :=
  if s.state_ = TCPSOCK_CONNECTED ∨ s.state_ = TCPSOCK_CONNECTING then
    if hard then
      if s.socketOpen then
        match os with
        | CloseOutcome.ok => { s with socketOpen := false, state_ := TCPSOCK_CLOSED }
        | CloseOutcome.setOptionThrows message => handleError s message
        | CloseOutcome.shutdownThrows message => handleError s message
        | CloseOutcome.closeThrows message =>
          handleError { s with socketOpen := false } message
      else { s with state_ := TCPSOCK_CLOSED }
    else { send s with state_ := TCPSOCK_CLOSING }
  else s

/-- Factory `TcpSocket::connectTo`. -/
def connectTo (sendFlag recvFlag : Bool) : TcpSocket :=
  let newSocket := mk0 TCPSOCK_CONNECTING sendFlag recvFlag
  if !newSocket.hasError then
    { newSocket with started := newSocket.started ++ [AsyncOp.resolve] }
  else newSocket

/-- Factory `TcpSocket::error`. -/
def error (message : String) (sendFlag recvFlag : Bool) : TcpSocket :=
  { mk0 TCPSOCK_FAILED sendFlag recvFlag with errorMessage_ := message }

/-- Factory `TcpSocket::fromConnectedSocket`, through the constructor that takes
an open, connected handle and calls `disableNagle`. -/
def fromConnectedSocket (sendFlag recvFlag : Bool) (nodelay : ErrorCode) : TcpSocket :=
  disableNagle { mk0 TCPSOCK_CONNECTED sendFlag recvFlag with socketOpen := true } nodelay

/-- Method `TcpSocket::handleConnect`.  When the throwing `socket_->close()` of
the deferred close fails, the exception leaves the handler before the state is
advanced. -/
def handleConnect (s : TcpSocket) (error : ErrorCode) (endpointIterator : List Endpoint)
    (env : ConnectEnv) : TcpSocket :=
  if s.state_ = TCPSOCK_CONNECTING ∨ s.state_ = TCPSOCK_CLOSING then
    match error with
    | none =>
      let s1 := disableNagle s env.nodelay
      if !s1.hasError then
        let s2 :=
          if s1.state_ = TCPSOCK_CONNECTING then { s1 with state_ := TCPSOCK_CONNECTED }
          else s1
        if s2.sendbuffer_.committedSize > 0 then startAsyncSend s2
        else if s2.state_ = TCPSOCK_CLOSING then
          match env.close with
          | none => { s2 with socketOpen := false, state_ := TCPSOCK_CLOSED }
          | some _ => { s2 with socketOpen := false }
        else s2
      else s1
    | some message =>
      match endpointIterator with
      | endpoint :: rest =>
        match env.close with
        | some closeMessage => handleError { s with socketOpen := false } closeMessage
        | none =>
          { s with socketOpen := env.opened
                   started := s.started ++ [AsyncOp.connect endpoint rest] }
      | [] => handleError s message
  else s

/-- Method `TcpSocket::handleResolve`. -/
def handleResolve (s : TcpSocket) (error : ErrorCode) (endpointIterator : List Endpoint)
    (env : ConnectEnv) : TcpSocket :=
  if s.state_ = TCPSOCK_CONNECTING ∨ s.state_ = TCPSOCK_CLOSING then
    match error with
    | none => handleConnect s hostNotFound endpointIterator env
    | some message => handleError s message
  else s

/-- Method `TcpSocket::handleSend`; `close` is the outcome of the throwing
`socket_->close()` of the deferred close, whose exception leaves the handler
before the state is advanced. -/
def handleSend (s : TcpSocket) (error : ErrorCode) (bytesTransferred : Nat)
    (close : ErrorCode) : TcpSocket :=
  let s0 := { s with asyncSendInProgress_ := false }
  if s0.state_ = TCPSOCK_CONNECTED ∨ s0.state_ = TCPSOCK_CLOSING then
    match error with
    | none =>
      let s1 := { s0 with sendbuffer_ := s0.sendbuffer_.pop bytesTransferred }
      if s1.sendbuffer_.committedSize > 0 then startAsyncSend s1
      else if s1.state_ = TCPSOCK_CLOSING then
        match close with
        | none => { s1 with socketOpen := false, state_ := TCPSOCK_CLOSED }
        | some _ => { s1 with socketOpen := false }
      else s1
    | some message => handleError s0 message
  else s0

/-- Method `TcpSocket::handleReceive`. -/
def handleReceive (s : TcpSocket) (error : ErrorCode) (_bytesTransferred : Nat) :
    TcpSocket :=
  let s0 := { s with asyncReceiveInProgress_ := false }
  match error with
  | some message => handleError s0 message
  | none => s0

/-- Bytes written in place at `index` by an outstanding `async_read`; positions
beyond the current size of the vector are not part of it. -/
def fillAt : List Byte → Nat → List Byte → List Byte
  | buf, _, [] => buf
  | buf, index, x :: xs => fillAt (buf.set index x) (index + 1) xs

/-- The reactor storing received bytes into the region an `async_read` was given. -/
def asyncReadFill (s : TcpSocket) (index : Nat) (data : List Byte) : TcpSocket :=
  { s with receiveBuffer_ := fillAt s.receiveBuffer_ index data }

end TcpSocket

open TcpSocket

/-- One step of a socket's life: a public operation together with what the
operating system answers, a completion handler called by the reactor, or the
reactor storing received bytes. -/
inductive Action where
  | write (buffer : List Byte)
  | setSendbufferLimit (maxSize : Nat)
  | send
  | receive (ammount : Nat) (drain : DrainOutcome)
  | receiveAny (drain : DrainOutcome)
  | isEof (peek : PeekOutcome)
  | disconnect (hard : Bool) (os : CloseOutcome)
  | handleResolve (error : ErrorCode) (endpointIterator : List Endpoint) (env : ConnectEnv)
  | handleConnect (error : ErrorCode) (endpointIterator : List Endpoint) (env : ConnectEnv)
  | handleSend (error : ErrorCode) (bytesTransferred : Nat) (close : ErrorCode)
  | handleReceive (error : ErrorCode) (bytesTransferred : Nat)
  | asyncReadFill (index : Nat) (data : List Byte)
  deriving DecidableEq, Repr

/-- The socket after one step. -/
def Action.apply : Action → TcpSocket → TcpSocket
  | Action.write buffer, s => s.write buffer
  | Action.setSendbufferLimit maxSize, s => s.setSendbufferLimit maxSize
  | Action.send, s => s.send
  | Action.receive ammount drain, s => (s.receive ammount drain).2
  | Action.receiveAny drain, s => (s.receiveAny drain).2
  | Action.isEof peek, s => (s.isEof peek).2
  | Action.disconnect hard os, s => s.disconnect hard os
  | Action.handleResolve error it env, s => s.handleResolve error it env
  | Action.handleConnect error it env, s => s.handleConnect error it env
  | Action.handleSend error n close, s => s.handleSend error n close
  | Action.handleReceive error n, s => s.handleReceive error n
  | Action.asyncReadFill index data, s => s.asyncReadFill index data

/-- The socket after a sequence of steps, oldest first. -/
def runActions (s : TcpSocket) : List Action → TcpSocket
  | [] => s
  | a :: rest => runActions (a.apply s) rest

/-- The send-side steps that respect the limit: a write whose size added to the
total size stays within the limit, a `send()`, or the successful completion of
a transmit on a connected socket that transferred at most the committed bytes. -/
def withinLimit (s : TcpSocket) : Action → Bool
  | Action.write buffer =>
    decide (s.sendbuffer_.totalSize + buffer.length ≤ s.sendbufferSizeLimit_)
  | Action.send => true
  | Action.handleSend none bytesTransferred _ =>
    decide (s.state_ = TCPSOCK_CONNECTED ∧ bytesTransferred ≤ s.sendbuffer_.committedSize)
  | _ => false

/-- Every step of the sequence is a send-side step that respects the limit at
the socket it is applied to. -/
def validSendRun (s : TcpSocket) : List Action → Bool
  | [] => true
  | a :: rest => withinLimit s a && validSendRun (a.apply s) rest

/-- The sum of the sizes of all writes in a sequence of steps. -/
def writtenBytes : List Action → Nat
  | [] => 0
  | Action.write buffer :: rest => buffer.length + writtenBytes rest
  | _ :: rest => writtenBytes rest

/-- The sum of the byte counts of all successful send completions in a sequence
of steps. -/
def poppedBytes : List Action → Nat
  | [] => 0
  | Action.handleSend none bytesTransferred _ :: rest => bytesTransferred + poppedBytes rest
  | _ :: rest => poppedBytes rest

/-- The sockets a program can hold: made by one of the three factories and
then driven by any sequence of steps. -/
inductive Reachable : TcpSocket → Prop where
  | connectTo (sendFlag recvFlag : Bool) : Reachable (connectTo sendFlag recvFlag)
  | fromConnectedSocket (sendFlag recvFlag : Bool) (nodelay : ErrorCode) :
      Reachable (fromConnectedSocket sendFlag recvFlag nodelay)
  | error (message : String) (sendFlag recvFlag : Bool) :
      Reachable (error message sendFlag recvFlag)
  | step (s : TcpSocket) (a : Action) : Reachable s → Reachable (a.apply s)

end Faucet

/-! ## The reactor delivering connect completions -/

namespace Faucet

open State TcpSocket

/-- The connect attempts a socket has started, oldest first: the endpoint tried
and the advanced iterator bound into the handler. -/
def connectsStarted (s : TcpSocket) : List (Endpoint × List Endpoint) :=
  s.started.filterMap fun op =>
    match op with
    | AsyncOp.connect endpoint rest => some (endpoint, rest)
    | _ => none

/-- The endpoints a socket has tried to connect to, oldest first. -/
def attempted (s : TcpSocket) : List Endpoint :=
  (connectsStarted s).map Prod.fst

/-- The reactor completing connect attempts in the order they were started.  The
script gives, for each completion, its error code and what the operating system
answers inside the handler.  The completion number `delivered` is delivered only
if that attempt was started; otherwise nothing is outstanding and the socket
stays as it is. -/
def deliverConnects : List (ErrorCode × ConnectEnv) → Nat → TcpSocket → TcpSocket
  | [], _, s => s
  | (result, env) :: script, delivered, s =>
    match (connectsStarted s)[delivered]? with
    | some (_, rest) =>
      deliverConnects script (delivered + 1) (s.handleConnect result rest env)
    | none => s

/-- A socket made by `connectTo` with no other call on it: resolution succeeds
with the candidates `endpoints`, then the reactor completes the connect
attempts as the script says. -/
def connectScenario (sendFlag recvFlag : Bool) (endpoints : List Endpoint)
    (resolveEnv : ConnectEnv) (script : List (ErrorCode × ConnectEnv)) : TcpSocket :=
  deliverConnects script 0
    ((connectTo sendFlag recvFlag).handleResolve none endpoints resolveEnv)

end Faucet

/-! ## Invariants -/

namespace Faucet

open State

/-- A socket that, if FAILED, has both buffers empty and its handle closed. -/
def FailedClean (s : TcpSocket) : Prop :=
  s.state_ = TCPSOCK_FAILED →
    s.sendbuffer_.staged = [] ∧ s.sendbuffer_.committed = [] ∧
    s.receiveBuffer_ = [] ∧ s.socketOpen = false

/-- Whether a socket is `FailedClean` can be computed. -/
instance (s : TcpSocket) : Decidable (FailedClean s) := by
  unfold FailedClean
  infer_instance

end Faucet

/-! ## Concrete sockets used as examples -/

namespace Faucet

open State TcpSocket

/-- A connected socket with limit 2 that already stages one byte. -/
def limitedSocket : TcpSocket :=
  { (mk0 TCPSOCK_CONNECTED false false).setSendbufferLimit 2 with
    socketOpen := true
    sendbuffer_ := ⟨[7], []⟩ }

/-- A connected socket with an open handle, three buffered received bytes, two
staged and one committed byte to send, and nothing in flight. -/
def busySocket : TcpSocket :=
  { mk0 TCPSOCK_CONNECTED false false with
    socketOpen := true
    sendbuffer_ := ⟨[4, 5], [3]⟩
    receiveBuffer_ := [10, 11, 12] }

/-- The socket `busySocket` while an asynchronous receive is outstanding. -/
def receivingSocket : TcpSocket :=
  { busySocket with
    asyncReceiveInProgress_ := true
    started := [AsyncOp.read 3 2]
    receiveBuffer_ := [10, 11, 12, 0, 0] }

/-- An operating system on which closing and setting no-delay succeed. -/
def calmEnv : ConnectEnv := { nodelay := none, close := none, opened := true }

/-- Three connect completions: refused, timed out, connected. -/
def thirdTimeLucky : List (ErrorCode × ConnectEnv) :=
  [(some "Connection refused", calmEnv), (some "Connection timed out", calmEnv),
    (none, calmEnv)]

/-- An accepted socket with limit 4 that stages three bytes, asks for five
received bytes while two are ready, and then writes three more bytes. -/
def overrunSocket : TcpSocket :=
  runActions (fromConnectedSocket false false none)
    [Action.setSendbufferLimit 4, Action.write [1, 2, 3],
      Action.receive 5 (DrainOutcome.ok [10, 11]), Action.write [4, 5, 6]]

/-- A socket in CLOSING with an open handle whose last two committed bytes are
being transmitted. -/
def closingSocket : TcpSocket :=
  { mk0 TCPSOCK_CLOSING true false with
    socketOpen := true
    sendbuffer_ := ⟨[], [8, 9]⟩
    started := [AsyncOp.writeSome 2] }

end Faucet

/-! ## More concrete sockets -/

namespace Faucet

open State TcpSocket

/-- An accepted socket that asked for five received bytes while two were ready,
so that a read of three is in flight, and was then closed hard. -/
def hardClosedSocket : TcpSocket :=
  runActions (fromConnectedSocket false false none)
    [Action.receive 5 (DrainOutcome.ok [10, 11]), Action.disconnect true CloseOutcome.ok]

/-- A socket from `connectTo` whose uninitialised send flag happens to read
true, after `write` of two bytes and `send()`. -/
def staleFlagSocket : TcpSocket :=
  runActions (connectTo true false) [Action.write [1, 2], Action.send]

end Faucet

/-! ## The dual-stack acceptor -/

namespace Faucet

/-- A connection waiting to be accepted, identified by a number. -/
abbrev Connection := Nat

/-- Modelled from the spec: the class `TcpAcceptor` (not part of the sources), a
single-protocol listener, seen as its connections waiting to be accepted,
oldest first. -/
structure TcpAcceptor where
  pending : List Connection
  deriving DecidableEq, Repr

/-- Modelled from the spec: `TcpAcceptor::accept`, which hands out the oldest
pending connection, or nothing when none is pending. -/
def TcpAcceptor.accept (a : TcpAcceptor) : Option Connection × TcpAcceptor :=
  match a.pending with
  | [] => (none, a)
  | c :: rest => (some c, { pending := rest })

/-- A connection arriving at a listener. -/
def TcpAcceptor.arrive (a : TcpAcceptor) (c : Connection) : TcpAcceptor :=
  { pending := a.pending ++ [c] }

/-- The members of `CombinedTcpAcceptor` declared in `CombinedTcpAcceptor.hpp`. -/
structure CombinedTcpAcceptor where
  v4Acceptor_ : TcpAcceptor
  v6Acceptor_ : TcpAcceptor
  checkV6First_ : Bool
  deriving DecidableEq, Repr

namespace CombinedTcpAcceptor

/-- Modelled from the spec: `CombinedTcpAcceptor::accept`, whose body is not
part of the sources.  The preferred listener is checked first, then the other;
a connection that is returned flips the preference; with nothing pending no
socket is returned.  The result is the connection the returned socket wraps,
`none` being the null pointer. -/
def accept (c : CombinedTcpAcceptor) : Option Connection × CombinedTcpAcceptor :=
  if c.checkV6First_ then
    match c.v6Acceptor_.accept with
    | (some conn, v6) =>
      (some conn, { c with v6Acceptor_ := v6, checkV6First_ := !c.checkV6First_ })
    | (none, _) =>
      match c.v4Acceptor_.accept with
      | (some conn, v4) =>
        (some conn, { c with v4Acceptor_ := v4, checkV6First_ := !c.checkV6First_ })
      | (none, _) => (none, c)
  else
    match c.v4Acceptor_.accept with
    | (some conn, v4) =>
      (some conn, { c with v4Acceptor_ := v4, checkV6First_ := !c.checkV6First_ })
    | (none, _) =>
      match c.v6Acceptor_.accept with
      | (some conn, v6) =>
        (some conn, { c with v6Acceptor_ := v6, checkV6First_ := !c.checkV6First_ })
      | (none, _) => (none, c)

/-- A connection arriving on the IPv4 listener. -/
def arriveV4 (c : CombinedTcpAcceptor) (conn : Connection) : CombinedTcpAcceptor :=
  { c with v4Acceptor_ := c.v4Acceptor_.arrive conn }

/-- A connection arriving on the IPv6 listener. -/
def arriveV6 (c : CombinedTcpAcceptor) (conn : Connection) : CombinedTcpAcceptor :=
  { c with v6Acceptor_ := c.v6Acceptor_.arrive conn }

/-- The listener that `accept` checks first: its pending connections. -/
def preferredPending (c : CombinedTcpAcceptor) : List Connection :=
  if c.checkV6First_ then c.v6Acceptor_.pending else c.v4Acceptor_.pending

/-- The listener that `accept` checks second: its pending connections. -/
def otherPending (c : CombinedTcpAcceptor) : List Connection :=
  if c.checkV6First_ then c.v4Acceptor_.pending else c.v6Acceptor_.pending

end CombinedTcpAcceptor

end Faucet

/-! ## The reactor's bookkeeping -/

namespace Faucet

open State TcpSocket

/-- Whether a started operation is a transmit. -/
def AsyncOp.isWriteSome : AsyncOp → Bool
  | AsyncOp.writeSome _ => true
  | _ => false

/-- Whether a started operation is a read. -/
def AsyncOp.isRead : AsyncOp → Bool
  | AsyncOp.read _ _ => true
  | _ => false

/-- Whether a started operation is a name resolution. -/
def AsyncOp.isResolve : AsyncOp → Bool
  | AsyncOp.resolve => true
  | _ => false

/-- The number of transmits a socket has started. -/
def sendsStarted (s : TcpSocket) : Nat := s.started.countP AsyncOp.isWriteSome

/-- The number of reads a socket has started. -/
def receivesStarted (s : TcpSocket) : Nat := s.started.countP AsyncOp.isRead

/-- The number of name resolutions a socket has started. -/
def resolvesStarted (s : TcpSocket) : Nat := s.started.countP AsyncOp.isResolve

/-- A socket together with the reactor's count of the completions it has
delivered to each of the socket's handlers. -/
structure World where
  socket : TcpSocket
  resolvesDone : Nat
  connectsDone : Nat
  sendsDone : Nat
  receivesDone : Nat
  deriving DecidableEq, Repr

namespace World

/-- A socket fresh from a factory: no completion has been delivered. -/
def start (s : TcpSocket) : World :=
  { socket := s, resolvesDone := 0, connectsDone := 0, sendsDone := 0, receivesDone := 0 }

/-- The number of transmits started and not yet completed. -/
def outstandingSends (w : World) : Nat := sendsStarted w.socket - w.sendsDone

/-- The number of reads started and not yet completed. -/
def outstandingReceives (w : World) : Nat := receivesStarted w.socket - w.receivesDone

/-- The number of name resolutions started and not yet completed. -/
def outstandingResolves (w : World) : Nat := resolvesStarted w.socket - w.resolvesDone

/-- The oldest connect attempt started and not yet completed, if any. -/
def outstandingConnect (w : World) : Option (Endpoint × List Endpoint) :=
  (connectsStarted w.socket)[w.connectsDone]?

/-- Whether a resolve or connect completion is still to come. -/
def connectPending (w : World) : Bool :=
  decide (0 < w.outstandingResolves) || w.outstandingConnect.isSome

/-- Whether a step can happen now: a public operation always can, a completion
only for an operation that was started and has not completed, and a connect
completion carries the iterator bound when the attempt was started. -/
def enabled (w : World) : Action → Bool
  | Action.handleResolve _ _ _ => decide (0 < w.outstandingResolves)
  | Action.handleConnect _ endpointIterator _ =>
    match w.outstandingConnect with
    | some (_, rest) => decide (endpointIterator = rest)
    | none => false
  | Action.handleSend _ _ _ => decide (0 < w.outstandingSends)
  | Action.handleReceive _ _ => decide (0 < w.outstandingReceives)
  | Action.asyncReadFill _ _ => decide (0 < w.outstandingReceives)
  | _ => true

/-- The world after a step: the socket takes the step and a delivered
completion is counted. -/
def step (w : World) (a : Action) : World :=
  match a with
  | Action.handleResolve _ _ _ =>
    { w with socket := a.apply w.socket, resolvesDone := w.resolvesDone + 1 }
  | Action.handleConnect _ _ _ =>
    { w with socket := a.apply w.socket, connectsDone := w.connectsDone + 1 }
  | Action.handleSend _ _ _ =>
    { w with socket := a.apply w.socket, sendsDone := w.sendsDone + 1 }
  | Action.handleReceive _ _ =>
    { w with socket := a.apply w.socket, receivesDone := w.receivesDone + 1 }
  | _ => { w with socket := a.apply w.socket }

/-- The world after a sequence of steps, oldest first. -/
def run (w : World) : List Action → World
  | [] => w
  | a :: rest => run (w.step a) rest

/-- Whether every step of a sequence can happen when its turn comes. -/
def runEnabled (w : World) : List Action → Bool
  | [] => true
  | a :: rest => w.enabled a && runEnabled (w.step a) rest

/-- The worlds that can arise: a socket made by a factory with both in-flight
flags false, then any sequence of steps that can happen. -/
inductive Reachable : World → Prop where
  | connectTo : Reachable (start (TcpSocket.connectTo false false))
  | fromConnectedSocket (nodelay : ErrorCode) :
      Reachable (start (TcpSocket.fromConnectedSocket false false nodelay))
  | error (message : String) : Reachable (start (TcpSocket.error message false false))
  | step (w : World) (a : Action) : Reachable w → w.enabled a = true → Reachable (w.step a)

end World

end Faucet

namespace Faucet

/-- What one step may do to the log of started operations and the two
in-flight flags: nothing, start a transmit and set the send flag, start a read
and set the receive flag, or start a connect attempt. -/
def Footprint (s r : TcpSocket) : Prop :=
  (r.started = s.started ∧ r.asyncSendInProgress_ = s.asyncSendInProgress_ ∧
    r.asyncReceiveInProgress_ = s.asyncReceiveInProgress_) ∨
  (s.asyncSendInProgress_ = false ∧ r.asyncSendInProgress_ = true ∧
    r.asyncReceiveInProgress_ = s.asyncReceiveInProgress_ ∧
    ∃ n, r.started = s.started ++ [AsyncOp.writeSome n]) ∨
  (s.asyncReceiveInProgress_ = false ∧ r.asyncReceiveInProgress_ = true ∧
    r.asyncSendInProgress_ = s.asyncSendInProgress_ ∧
    ∃ i k, r.started = s.started ++ [AsyncOp.read i k]) ∨
  (r.asyncSendInProgress_ = s.asyncSendInProgress_ ∧
    r.asyncReceiveInProgress_ = s.asyncReceiveInProgress_ ∧
    ∃ e rest, r.started = s.started ++ [AsyncOp.connect e rest])

end Faucet

namespace Faucet

/-- The flags agree with the reactor: the transmits started are those completed
plus one exactly when the send flag is set, and likewise for reads. -/
def World.FlagsMatch (w : World) : Prop :=
  sendsStarted w.socket = w.sendsDone + w.socket.asyncSendInProgress_.toNat ∧
  receivesStarted w.socket = w.receivesDone + w.socket.asyncReceiveInProgress_.toNat

end Faucet

namespace Faucet

open State TcpSocket

/-- An accepted socket that wrote three bytes, called `send()` and asked for
five received bytes while two were ready: one transmit and one read are
outstanding. -/
def busyWorld : World :=
  World.run (World.start (fromConnectedSocket false false none))
    [Action.write [1, 2, 3], Action.send, Action.receive 5 (DrainOutcome.ok [10, 11])]

/-- An accepted socket that wrote two bytes and was closed softly; the transmit
then completes with both bytes sent and the deferred `socket_->close()` throws. -/
def strandedWorld : World :=
  World.run (World.start (fromConnectedSocket false false none))
    [Action.write [1, 2], Action.disconnect false CloseOutcome.ok,
      Action.handleSend none 2 (some "Input/output error")]

end Faucet

namespace Faucet

open State TcpSocket

/-- Whether every `close` of the handle that a completion handler performs in
this step succeeds. -/
def Action.closeSucceeds : Action → Bool
  | Action.handleSend _ _ close => close.isNone
  | Action.handleConnect _ _ env => env.close.isNone
  | Action.handleResolve _ _ env => env.close.isNone
  | _ => true

/-- A step that leaves the state as it was or fails the socket, and leaves the
send flag. -/
def Quiet (s r : TcpSocket) : Prop :=
  (r.state_ = s.state_ ∨ r.state_ = TCPSOCK_FAILED) ∧
  r.asyncSendInProgress_ = s.asyncSendInProgress_

/-- No close is stranded: a socket still CONNECTING has a resolve or connect
completion to come, and a socket in CLOSING has one to come or a send in
flight.  The reactor has not completed more connect attempts than were started. -/
def World.NotStranded (w : World) : Prop :=
  w.connectsDone ≤ (connectsStarted w.socket).length ∧
  (w.socket.state_ = TCPSOCK_CONNECTING → w.connectPending = true) ∧
  (w.socket.state_ = TCPSOCK_CLOSING →
    w.connectPending = true ∨ w.socket.asyncSendInProgress_ = true)

/-- The worlds that can arise when no `close` performed by a completion handler
throws. -/
inductive World.ReachableCalm : World → Prop where
  | connectTo : World.ReachableCalm (World.start (TcpSocket.connectTo false false))
  | fromConnectedSocket (nodelay : ErrorCode) :
      World.ReachableCalm (World.start (TcpSocket.fromConnectedSocket false false nodelay))
  | error (message : String) :
      World.ReachableCalm (World.start (TcpSocket.error message false false))
  | step (w : World) (a : Action) : World.ReachableCalm w → w.enabled a = true →
      a.closeSucceeds = true → World.ReachableCalm (w.step a)

end Faucet

namespace Faucet

open State TcpSocket

/-- A step that is not a resolve or connect completion: it does not enter
CONNECTING, and it leaves or enters CLOSING only with the send flag kept, from
CONNECTING, or with the send flag set. -/
def KeepsPending (s r : TcpSocket) : Prop :=
  (r.state_ = TCPSOCK_CONNECTING → s.state_ = TCPSOCK_CONNECTING) ∧
  (r.state_ = TCPSOCK_CLOSING →
    (s.state_ = TCPSOCK_CLOSING ∧ r.asyncSendInProgress_ = s.asyncSendInProgress_) ∨
    s.state_ = TCPSOCK_CONNECTING ∨ r.asyncSendInProgress_ = true)

/-- A resolve or connect completion: the socket stays CONNECTING only by
starting the next attempt, and stays CLOSING only by starting the next attempt
or with the send flag set. -/
def ConnectStep (s r : TcpSocket) : Prop :=
  (r.state_ = TCPSOCK_CONNECTING →
    ∃ e rest, connectsStarted r = connectsStarted s ++ [(e, rest)]) ∧
  (r.state_ = TCPSOCK_CLOSING →
    r.asyncSendInProgress_ = true ∨
    ∃ e rest, connectsStarted r = connectsStarted s ++ [(e, rest)])

end Faucet

/-! ## Theorems -/

namespace Faucet

open State TcpSocket

/-- The effect of `handleError` field by field. -/
theorem handleError_eq (s : TcpSocket) (m : String) :
    s.handleError m =
      { s with
        socketOpen := false
        state_ := TCPSOCK_FAILED
        errorMessage_ := if s.state_ = TCPSOCK_FAILED then s.errorMessage_ else m
        sendbuffer_ := SendBuffer.empty
        receiveBuffer_ := [] } := by
  cases s with
  | mk o st e sb lim rb sf rf log =>
    cases o <;> cases st <;> simp [handleError, SendBuffer.clear]

/-- A `size_t` sum that fits is the plain sum. -/
theorem sizeAdd_of_le {a b : Nat} (h : a + b ≤ SIZE_MAX) : sizeAdd a b = a + b := by
  unfold sizeAdd
  exact Nat.mod_eq_of_lt (Nat.lt_succ_of_le h)

/-- C1: on a socket in CONNECTING or CONNECTED, a write whose size added to the
current total size does not overflow `size_t` and exceeds the limit leaves the
socket FAILED with the limit message, and the send buffer holds nothing
afterwards, so none of the offending bytes. -/
theorem write_over_limit_fails (s : TcpSocket) (buffer : List Byte)
    (hstate : s.state_ = TCPSOCK_CONNECTING ∨ s.state_ = TCPSOCK_CONNECTED)
    (hfit : s.sendbuffer_.totalSize + buffer.length ≤ SIZE_MAX)
    (hover : s.sendbuffer_.totalSize + buffer.length > s.sendbufferSizeLimit_) :
    (s.write buffer).state_ = TCPSOCK_FAILED ∧
    (s.write buffer).hasError = true ∧
    (s.write buffer).getErrorMessage = "The send buffer size limit was exceeded." ∧
    (s.write buffer).sendbuffer_.staged = [] ∧
    (s.write buffer).sendbuffer_.committed = [] ∧
    (s.write buffer).getSendbufferSize = 0 := by
  have hne : s.state_ ≠ TCPSOCK_FAILED := by
    rcases hstate with h | h <;> simp [h]
  have hw : s.write buffer
      = s.handleError "The send buffer size limit was exceeded." := by
    unfold write
    rw [if_pos hstate.symm, sizeAdd_of_le hfit, if_pos hover]
  rw [hw, handleError_eq]
  simp [hne, hasError, getErrorMessage, getSendbufferSize, SendBuffer.empty,
    SendBuffer.totalSize]

/-- C1 at a concrete socket: limit 2, one byte staged, a write of two bytes. -/
theorem write_over_limit_fails_witness :
    (limitedSocket.write [1, 2]).state_ = TCPSOCK_FAILED ∧
    (limitedSocket.write [1, 2]).hasError = true ∧
    (limitedSocket.write [1, 2]).getErrorMessage
      = "The send buffer size limit was exceeded." ∧
    (limitedSocket.write [1, 2]).sendbuffer_.staged = [] ∧
    (limitedSocket.write [1, 2]).sendbuffer_.committed = [] ∧
    (limitedSocket.write [1, 2]).getSendbufferSize = 0 :=
  write_over_limit_fails limitedSocket [1, 2] (Or.inr rfl) (by decide) (by decide)

/-- C9: `handleError` is idempotent and the first error wins: a second call
changes nothing; the stored message is the first one when the socket was not
FAILED before, and is left as it was on a socket that was already FAILED, such
as one made by the `error` factory. -/
theorem handleError_idempotent (s : TcpSocket) (m1 m2 : String) :
    (s.handleError m1).handleError m2 = s.handleError m1 ∧
    (s.state_ ≠ TCPSOCK_FAILED → (s.handleError m1).getErrorMessage = m1) ∧
    (s.state_ = TCPSOCK_FAILED →
      (s.handleError m1).getErrorMessage = s.getErrorMessage) ∧
    (∀ (message : String) (sendFlag recvFlag : Bool),
      ((TcpSocket.error message sendFlag recvFlag).handleError m1).getErrorMessage
        = message) := by
  refine ⟨?_, ?_, ?_, ?_⟩
  · simp [handleError_eq]
  · intro h
    simp [handleError_eq, getErrorMessage, h]
  · intro h
    simp [handleError_eq, getErrorMessage, h]
  · intro message sendFlag recvFlag
    simp [handleError_eq, getErrorMessage, TcpSocket.error, mk0]

/-- C4: while a receive is in flight, or outside CONNECTED, `receive(amount)`
returns no data and `receive()` returns an empty buffer, and both leave every
field of the socket as it was, the log of started operations included. -/
theorem receive_guarded_noop (s : TcpSocket)
    (h : s.asyncReceiveInProgress_ = true ∨ s.state_ ≠ TCPSOCK_CONNECTED)
    (ammount : Nat) (drain : DrainOutcome) :
    s.receive ammount drain = (none, s) ∧ s.receiveAny drain = ([], s) := by
  constructor
  · unfold receive
    rw [if_pos h]
  · unfold receiveAny
    rw [if_pos h]

/-- C4 at a socket with a receive in flight, whatever the OS would deliver. -/
theorem receive_guarded_noop_witness :
    receivingSocket.receive 2 (DrainOutcome.ok [1, 2]) = (none, receivingSocket) ∧
    receivingSocket.receiveAny (DrainOutcome.ok [1, 2]) = ([], receivingSocket) :=
  receive_guarded_noop receivingSocket (Or.inl rfl) 2 (DrainOutcome.ok [1, 2])

/-- C7: on a socket in CONNECTING or CONNECTED, `disconnect(true)` ends CLOSED
when the handle is not open or the linger/shutdown/close sequence succeeds, and
ends FAILED with the message of the failing call otherwise, never CLOSING; in
every other state `disconnect` with either value of `hard` changes nothing. -/
theorem disconnect_hard_synchronous (s : TcpSocket) (os : CloseOutcome) :
    ((s.state_ = TCPSOCK_CONNECTING ∨ s.state_ = TCPSOCK_CONNECTED) →
      ((s.socketOpen = false ∨ os = CloseOutcome.ok) →
        (s.disconnect true os).state_ = TCPSOCK_CLOSED) ∧
      (∀ m, s.socketOpen = true →
        (os = CloseOutcome.setOptionThrows m ∨ os = CloseOutcome.shutdownThrows m ∨
          os = CloseOutcome.closeThrows m) →
        (s.disconnect true os).state_ = TCPSOCK_FAILED ∧
        (s.disconnect true os).getErrorMessage = m) ∧
      (s.disconnect true os).state_ ≠ TCPSOCK_CLOSING) ∧
    ((s.state_ ≠ TCPSOCK_CONNECTING ∧ s.state_ ≠ TCPSOCK_CONNECTED) →
      ∀ hard : Bool, s.disconnect hard os = s) := by
  constructor
  · intro hstate
    have hg : s.state_ = TCPSOCK_CONNECTED ∨ s.state_ = TCPSOCK_CONNECTING := hstate.symm
    have hne : s.state_ ≠ TCPSOCK_FAILED := by
      rcases hstate with h | h <;> simp [h]
    refine ⟨?_, ?_, ?_⟩
    · intro hok
      unfold disconnect
      rw [if_pos hg]
      rcases hok with hclosed | hok
      · simp [hclosed]
      · subst hok
        cases s.socketOpen <;> simp
    · intro m hopen hfail
      unfold disconnect
      rw [if_pos hg]
      rcases hfail with h | h | h <;> subst h <;>
        simp [hopen, handleError_eq, getErrorMessage, hne]
    · unfold disconnect
      rw [if_pos hg]
      cases s.socketOpen <;> cases os <;> simp [handleError_eq]
  · intro hstate hard
    unfold disconnect
    rw [if_neg (by tauto)]

/-- C3: on a CONNECTED socket with no receive in flight, with `B` the receive
buffer and a successful drain delivering `D` (attempted only when `B` is shorter
than `n`): if the buffer then holds at least `n` bytes, `receive(n)` returns its
first `n` bytes and keeps the rest, in order; otherwise it returns no data,
marks a receive in flight and starts a read of exactly the missing bytes.  A
failing drain fails the socket and returns no data.  On any socket a non-null
result has length `n`. -/
theorem receive_amount_exact (s : TcpSocket) (n : Nat) (drain : DrainOutcome)
    (hstate : s.state_ = TCPSOCK_CONNECTED) (hidle : s.asyncReceiveInProgress_ = false) :
    (∀ D : List Byte, drain = DrainOutcome.ok D →
      ∀ B1 : List Byte,
      B1 = (if s.receiveBuffer_.length < n then s.receiveBuffer_ ++ D
            else s.receiveBuffer_) →
      (n ≤ B1.length →
        s.receive n drain
          = (some (B1.take n), { s with receiveBuffer_ := B1.drop n })) ∧
      (B1.length < n →
        B1 = s.receiveBuffer_ ++ D ∧
        (s.receive n drain).1 = none ∧
        (s.receive n drain).2.asyncReceiveInProgress_ = true ∧
        (s.receive n drain).2.started
          = s.started ++ [AsyncOp.read B1.length (n - B1.length)] ∧
        (s.receive n drain).2.receiveBuffer_
          = B1 ++ List.replicate (n - B1.length) 0 ∧
        (s.receive n drain).2.state_ = TCPSOCK_CONNECTED)) ∧
    (∀ m : String, s.receiveBuffer_.length < n →
      (drain = DrainOutcome.availableThrows m ∨
        ∃ available, drain = DrainOutcome.readThrows available m) →
      (s.receive n drain).1 = none ∧
      (s.receive n drain).2.state_ = TCPSOCK_FAILED ∧
      (s.receive n drain).2.getErrorMessage = m) ∧
    (∀ (t : TcpSocket) (k : Nat) (d : DrainOutcome) (r : List Byte),
      (t.receive k d).1 = some r → r.length = k) := by
  refine ⟨?_, ?_, ?_⟩
  · intro D hD B1 hB1
    subst hD
    by_cases hshort : s.receiveBuffer_.length < n
    · rw [if_pos hshort] at hB1
      subst hB1
      constructor
      · intro hlen
        simp [receive, nonblockReceiveAvailable, hstate, hidle, hshort]
        simpa using hlen
      · intro hlen
        have hlen2 : s.receiveBuffer_.length + D.length < n := by simpa using hlen
        have hnot : ¬ (n ≤ s.receiveBuffer_.length + D.length) := by omega
        simp [receive, nonblockReceiveAvailable, startAsyncReceive, hstate, hidle,
          hshort, hnot]
    · rw [if_neg hshort] at hB1
      subst hB1
      constructor
      · intro hlen
        simp [receive, hstate, hidle, hshort, hlen]
      · intro hlen
        exact absurd hlen hshort
  · intro m hshort hfail
    have hne : s.state_ ≠ TCPSOCK_FAILED := by simp [hstate]
    rcases hfail with h | ⟨available, h⟩ <;> subst h <;>
      simp [receive, nonblockReceiveAvailable, hstate, hidle, hshort, handleError_eq,
        getErrorMessage]
  · intro t k d r hr
    unfold receive at hr
    by_cases hg : t.asyncReceiveInProgress_ = true ∨ t.state_ ≠ TCPSOCK_CONNECTED
    · simp [hg] at hr
    · simp only [hg, if_false] at hr
      generalize (if t.receiveBuffer_.length < k then t.nonblockReceiveAvailable d
        else (t, none)) = p at hr
      obtain ⟨s1, e⟩ := p
      cases e with
      | some m => simp at hr
      | none =>
        by_cases hge : s1.receiveBuffer_.length ≥ k
        · simp [hge] at hr
          rw [← hr]
          simpa using hge
        · simp [hge] at hr

/-- C3 at a socket buffering three bytes: asking for five with two more ready. -/
theorem receive_amount_exact_witness :
    busySocket.receive 5 (DrainOutcome.ok [13, 14])
      = (some [10, 11, 12, 13, 14], { busySocket with receiveBuffer_ := [] }) :=
  ((receive_amount_exact busySocket 5 (DrainOutcome.ok [13, 14]) rfl rfl).1
    [13, 14] rfl [10, 11, 12, 13, 14] rfl).1 (by decide)

/-- C5, evaluated where the code departs from it: on a CLOSING socket whose last
two committed bytes are in flight, the successful completion drains the
committed region, but the deferred `socket_->close()`, which `handleSend` calls
outside any try block, throws before the state is advanced; the state stays
CLOSING instead of becoming CLOSED. -/
theorem handleSend_close_throw_stays_closing :
    closingSocket.state_ = TCPSOCK_CLOSING ∧
    closingSocket.sendbuffer_.committedSize = 2 ∧
    (closingSocket.handleSend none 2 (some "Input/output error")).sendbuffer_.committedSize
      = 0 ∧
    (closingSocket.handleSend none 2 (some "Input/output error")).state_
      = TCPSOCK_CLOSING ∧
    (closingSocket.handleSend none 2 (some "Input/output error")).state_
      ≠ TCPSOCK_CLOSED := by
  decide

/-- What a send completion does apart from a throwing close: on a socket in
CONNECTED or CLOSING a successful send completion
with `n` transferred bytes (at most the committed size) shrinks the committed
region by exactly `n`; if committed bytes remain a new transmit is started with
the guard set and the state unchanged; if none remain and the state was CLOSING
the handle is closed and, when the close succeeds, the state becomes CLOSED with
no send in flight; if none remain and the state was CONNECTED it stays CONNECTED
with no send in flight.  An error completion makes the socket FAILED with that
error's message and clears the guard. -/
theorem handleSend_completion (s : TcpSocket) (n : Nat) (close : ErrorCode)
    (hstate : s.state_ = TCPSOCK_CONNECTED ∨ s.state_ = TCPSOCK_CLOSING)
    (hn : n ≤ s.sendbuffer_.committedSize) :
    (s.handleSend none n close).sendbuffer_.committed = s.sendbuffer_.committed.drop n ∧
    (s.handleSend none n close).sendbuffer_.committedSize + n
      = s.sendbuffer_.committedSize ∧
    (s.handleSend none n close).sendbuffer_.staged = s.sendbuffer_.staged ∧
    (n < s.sendbuffer_.committedSize →
      (s.handleSend none n close).asyncSendInProgress_ = true ∧
      (s.handleSend none n close).state_ = s.state_ ∧
      (s.handleSend none n close).started
        = s.started ++ [AsyncOp.writeSome (s.sendbuffer_.committedSize - n)]) ∧
    (n = s.sendbuffer_.committedSize → s.state_ = TCPSOCK_CLOSING →
      (s.handleSend none n close).socketOpen = false ∧
      (s.handleSend none n close).sendbuffer_.committedSize = 0 ∧
      (s.handleSend none n close).asyncSendInProgress_ = false ∧
      (close = none → (s.handleSend none n close).state_ = TCPSOCK_CLOSED)) ∧
    (n = s.sendbuffer_.committedSize → s.state_ = TCPSOCK_CONNECTED →
      (s.handleSend none n close).state_ = TCPSOCK_CONNECTED ∧
      (s.handleSend none n close).asyncSendInProgress_ = false ∧
      (s.handleSend none n close).started = s.started) ∧
    (∀ m : String,
      (s.handleSend (some m) n close).state_ = TCPSOCK_FAILED ∧
      (s.handleSend (some m) n close).getErrorMessage = m ∧
      (s.handleSend (some m) n close).asyncSendInProgress_ = false) := by
  have hne : s.state_ ≠ TCPSOCK_FAILED := by
    rcases hstate with h | h <;> simp [h]
  simp only [SendBuffer.committedSize] at hn ⊢
  refine ⟨?_, ?_, ?_, ?_, ?_, ?_, ?_⟩
  · unfold handleSend startAsyncSend
    simp only [hstate, if_true]
    split <;> [skip; split <;> [split; skip]] <;> simp [SendBuffer.pop]
  · unfold handleSend startAsyncSend
    simp only [hstate, if_true]
    split <;> [skip; split <;> [split; skip]] <;> simp [SendBuffer.pop] <;> omega
  · unfold handleSend startAsyncSend
    simp only [hstate, if_true]
    split <;> [skip; split <;> [split; skip]] <;> simp [SendBuffer.pop]
  · intro hlt
    have hpos : 0 < s.sendbuffer_.committed.length - n := by omega
    simp [handleSend, startAsyncSend, hstate, SendBuffer.pop, SendBuffer.committedSize,
      hpos]
  · intro heq hcl
    have hz : s.sendbuffer_.committed.length - n = 0 := by omega
    cases close <;>
      simp [handleSend, hcl, SendBuffer.pop, SendBuffer.committedSize, hz]
  · intro heq hco
    have hz : s.sendbuffer_.committed.length - n = 0 := by omega
    simp [handleSend, hco, SendBuffer.pop, SendBuffer.committedSize, hz]
  · intro m
    simp [handleSend, hstate, handleError_eq, getErrorMessage, hne]

/-- A CLOSING socket whose last two committed bytes went out becomes CLOSED when
the close succeeds. -/
theorem handleSend_completion_witness :
    (closingSocket.handleSend none 2 none).state_ = TCPSOCK_CLOSED :=
  ((handleSend_completion closingSocket 2 none (Or.inr rfl) (by decide)).2.2.2.2.1
    rfl rfl).2.2.2 rfl

/-- One limit-respecting send-side step keeps the state and the limit and moves
the total size by what it wrote or popped. -/
theorem withinLimit_step (s : TcpSocket) (a : Action)
    (hstate : s.state_ = TCPSOCK_CONNECTING ∨ s.state_ = TCPSOCK_CONNECTED)
    (hlimit : s.sendbufferSizeLimit_ ≤ SIZE_MAX)
    (hok : withinLimit s a = true) :
    (a.apply s).state_ = s.state_ ∧
    (a.apply s).sendbufferSizeLimit_ = s.sendbufferSizeLimit_ ∧
    (a.apply s).sendbuffer_.totalSize + poppedBytes [a]
      = s.sendbuffer_.totalSize + writtenBytes [a] := by
  cases a with
  | write buffer =>
    simp only [withinLimit, decide_eq_true_eq] at hok
    have hadd := sizeAdd_of_le (le_trans hok hlimit)
    have hnot : ¬ (sizeAdd s.sendbuffer_.totalSize buffer.length > s.sendbufferSizeLimit_) := by
      rw [hadd]
      omega
    simp only [Action.apply, write, if_pos hstate.symm, if_neg hnot]
    simp [SendBuffer.push, SendBuffer.totalSize, poppedBytes, writtenBytes]
    omega
  | send =>
    simp only [Action.apply, send, if_pos hstate.symm]
    rcases hstate with h | h
    · simp [h, SendBuffer.commit, SendBuffer.totalSize, poppedBytes, writtenBytes]
      omega
    · simp only [h, if_true, startAsyncSend]
      split <;>
        simp [h, SendBuffer.commit, SendBuffer.totalSize, poppedBytes, writtenBytes] <;>
        omega
  | handleSend error n close =>
    cases error with
    | some m => simp [withinLimit] at hok
    | none =>
      simp only [withinLimit, decide_eq_true_eq] at hok
      obtain ⟨hco, hn⟩ := hok
      simp only [SendBuffer.committedSize] at hn
      by_cases hlt : n < s.sendbuffer_.committed.length
      · have hpos : 0 < s.sendbuffer_.committed.length - n := by omega
        simp [Action.apply, handleSend, startAsyncSend, hco, SendBuffer.pop,
          SendBuffer.committedSize, SendBuffer.totalSize, poppedBytes, writtenBytes, hpos]
        omega
      · have hz : s.sendbuffer_.committed.length - n = 0 := by omega
        simp [Action.apply, handleSend, hco, SendBuffer.pop,
          SendBuffer.committedSize, SendBuffer.totalSize, poppedBytes, writtenBytes, hz]
        omega
  | setSendbufferLimit _ => simp [withinLimit] at hok
  | receive _ _ => simp [withinLimit] at hok
  | receiveAny _ => simp [withinLimit] at hok
  | isEof _ => simp [withinLimit] at hok
  | disconnect _ _ => simp [withinLimit] at hok
  | handleResolve _ _ _ => simp [withinLimit] at hok
  | handleConnect _ _ _ => simp [withinLimit] at hok
  | handleReceive _ _ => simp [withinLimit] at hok
  | asyncReadFill _ _ => simp [withinLimit] at hok

/-- Written and popped byte counts of a sequence, step by step. -/
theorem writtenBytes_cons (a : Action) (rest : List Action) :
    writtenBytes (a :: rest) = writtenBytes [a] + writtenBytes rest := by
  cases a <;> simp [writtenBytes]

/-- Popped byte counts of a sequence, step by step. -/
theorem poppedBytes_cons (a : Action) (rest : List Action) :
    poppedBytes (a :: rest) = poppedBytes [a] + poppedBytes rest := by
  cases a with
  | handleSend error n close => cases error <;> simp [poppedBytes]
  | _ => simp [poppedBytes]

/-- A limit-respecting run keeps the state and moves the total size by what it
wrote minus what it popped. -/
theorem validSendRun_accounting (acts : List Action) :
    ∀ s : TcpSocket,
      (s.state_ = TCPSOCK_CONNECTING ∨ s.state_ = TCPSOCK_CONNECTED) →
      s.sendbufferSizeLimit_ ≤ SIZE_MAX →
      validSendRun s acts = true →
      (runActions s acts).state_ = s.state_ ∧
      (runActions s acts).sendbuffer_.totalSize + poppedBytes acts
        = s.sendbuffer_.totalSize + writtenBytes acts := by
  induction acts with
  | nil =>
    intro s _ _ _
    simp [runActions, poppedBytes, writtenBytes]
  | cons a rest ih =>
    intro s hstate hlimit hvalid
    simp only [validSendRun, Bool.and_eq_true] at hvalid
    obtain ⟨hstep1, hstep2, hstep3⟩ := withinLimit_step s a hstate hlimit hvalid.1
    have hstate2 : (a.apply s).state_ = TCPSOCK_CONNECTING ∨
        (a.apply s).state_ = TCPSOCK_CONNECTED := by rw [hstep1]; exact hstate
    obtain ⟨ih1, ih2⟩ := ih (a.apply s) hstate2 (by rw [hstep2]; exact hlimit) hvalid.2
    refine ⟨by simp only [runActions]; rw [ih1, hstep1], ?_⟩
    simp only [runActions]
    rw [writtenBytes_cons a rest, poppedBytes_cons a rest]
    omega

/-- A prefix of a limit-respecting run is a limit-respecting run. -/
theorem validSendRun_take (acts : List Action) :
    ∀ (s : TcpSocket) (i : Nat), validSendRun s acts = true →
      validSendRun s (acts.take i) = true := by
  induction acts with
  | nil => intro s i h; simp [validSendRun]
  | cons a rest ih =>
    intro s i h
    cases i with
    | zero => simp [validSendRun]
    | succ i =>
      simp only [validSendRun, Bool.and_eq_true, List.take_succ_cons] at h ⊢
      exact ⟨h.1, ih _ i h.2⟩

/-- C2: from a socket in CONNECTING or CONNECTED with an empty send buffer and a
`size_t` limit, along every interleaving of writes that stay within the limit,
`send()` calls and successful send completions popping at most the committed
bytes, after each step the socket is still in its initial state, so not FAILED,
and `getSendbufferSize()` is the sum of the written sizes minus the sum of the
popped byte counts. -/
theorem sendbuffer_accounting (s0 : TcpSocket) (acts : List Action)
    (hstate : s0.state_ = TCPSOCK_CONNECTING ∨ s0.state_ = TCPSOCK_CONNECTED)
    (hempty : s0.sendbuffer_ = SendBuffer.empty)
    (hlimit : s0.sendbufferSizeLimit_ ≤ SIZE_MAX)
    (hvalid : validSendRun s0 acts = true) (i : Nat) :
    (runActions s0 (acts.take i)).state_ = s0.state_ ∧
    (runActions s0 (acts.take i)).hasError = false ∧
    poppedBytes (acts.take i) ≤ writtenBytes (acts.take i) ∧
    (runActions s0 (acts.take i)).getSendbufferSize
      = writtenBytes (acts.take i) - poppedBytes (acts.take i) := by
  obtain ⟨h1, h2⟩ := validSendRun_accounting (acts.take i) s0 hstate hlimit
    (validSendRun_take acts s0 i hvalid)
  have hz : s0.sendbuffer_.totalSize = 0 := by
    rw [hempty]
    rfl
  refine ⟨h1, ?_, ?_, ?_⟩
  · rw [hasError, h1]
    rcases hstate with h | h <;> simp [h]
  · omega
  · unfold getSendbufferSize
    omega

/-- C2 on a fresh connected socket with limit 4: write 3, send, 2 bytes go out,
write 3 more, send, the remaining 4 go out one by one or together. -/
theorem sendbuffer_accounting_witness :
    (runActions ((mk0 TCPSOCK_CONNECTED false false).setSendbufferLimit 4)
      [Action.write [1, 2, 3], Action.send, Action.handleSend none 2 none,
        Action.write [4, 5, 6], Action.send]).getSendbufferSize = 4 :=
  (sendbuffer_accounting ((mk0 TCPSOCK_CONNECTED false false).setSendbufferLimit 4)
    [Action.write [1, 2, 3], Action.send, Action.handleSend none 2 none,
      Action.write [4, 5, 6], Action.send, Action.handleSend none 4 none]
    (Or.inr rfl) rfl (by decide) (by decide) 5).2.2.2

/-- From CLOSING with committed bytes left, the only step that reaches CLOSED is
a successful send completion that transferred all committed bytes. -/
theorem closing_reaches_closed_only_by_drain (t : TcpSocket) (a : Action)
    (hcl : t.state_ = TCPSOCK_CLOSING) (hne : t.sendbuffer_.committed ≠ [])
    (hclosed : (a.apply t).state_ = TCPSOCK_CLOSED) :
    ∃ k close, a = Action.handleSend none k close ∧ t.sendbuffer_.committedSize ≤ k ∧
      (a.apply t).sendbuffer_.committed = [] := by
  have hpos : 0 < t.sendbuffer_.committed.length := List.length_pos.mpr hne
  cases a with
  | write buffer => simp [Action.apply, write, hcl] at hclosed
  | setSendbufferLimit m => simp [Action.apply, setSendbufferLimit, hcl] at hclosed
  | send => simp [Action.apply, send, hcl] at hclosed
  | receive n d => simp [Action.apply, receive, hcl] at hclosed
  | receiveAny d => simp [Action.apply, receiveAny, hcl] at hclosed
  | isEof p => simp [Action.apply, isEof, hcl] at hclosed
  | disconnect h os => simp [Action.apply, disconnect, hcl] at hclosed
  | handleResolve e it env =>
    exfalso
    revert hclosed
    cases e <;> cases it <;> cases hn : env.nodelay <;> cases hc : env.close <;>
      simp [Action.apply, handleResolve, handleConnect, hostNotFound, disableNagle,
        startAsyncSend, hasError, handleError_eq, hcl, hn, hc, hpos,
        SendBuffer.committedSize, SendBuffer.empty]
  | handleConnect e it env =>
    exfalso
    revert hclosed
    cases e <;> cases it <;> cases hn : env.nodelay <;> cases hc : env.close <;>
      cases hf : t.asyncSendInProgress_ <;>
      simp [Action.apply, handleConnect, disableNagle,
        startAsyncSend, hasError, handleError_eq, hcl, hn, hc, hf, hpos,
        SendBuffer.committedSize, SendBuffer.empty]
  | handleReceive e n =>
    exfalso
    revert hclosed
    cases e <;> simp [Action.apply, handleReceive, handleError_eq, hcl]
  | asyncReadFill i d => simp [Action.apply, asyncReadFill, hcl] at hclosed
  | handleSend e k close =>
    cases e with
    | some m => simp [Action.apply, handleSend, handleError_eq, hcl] at hclosed
    | none =>
      refine ⟨k, close, rfl, ?_⟩
      by_cases hlt : k < t.sendbuffer_.committed.length
      · exfalso
        have hp : 0 < t.sendbuffer_.committed.length - k := by omega
        revert hclosed
        cases hf : t.asyncSendInProgress_ <;>
          simp [Action.apply, handleSend, startAsyncSend, hcl, SendBuffer.pop,
            SendBuffer.committedSize, hp, hf]
      · have hz : t.sendbuffer_.committed.length - k = 0 := by omega
        have hle : t.sendbuffer_.committed.length ≤ k := by omega
        refine ⟨hle, ?_⟩
        cases close <;>
          simp [Action.apply, handleSend, hcl, SendBuffer.pop, SendBuffer.committedSize,
            hz, List.drop_eq_nil_iff, hle]

/-- C6: on a socket in CONNECTING or CONNECTED with a non-empty send buffer,
`disconnect(false)` moves all staged bytes behind the committed ones and leaves
the state CLOSING, not CLOSED.  From CLOSING, a successful send completion that
leaves committed bytes keeps the state CLOSING, and no step of any kind reaches
CLOSED while committed bytes are left other than a successful send completion
that drains the committed region; at that completion, when the close succeeds,
the state becomes CLOSED. -/
theorem disconnect_soft_defers_close (s : TcpSocket) (os : CloseOutcome)
    (hstate : s.state_ = TCPSOCK_CONNECTING ∨ s.state_ = TCPSOCK_CONNECTED)
    (hdata : 0 < s.sendbuffer_.totalSize) :
    ((s.disconnect false os).state_ = TCPSOCK_CLOSING ∧
      (s.disconnect false os).state_ ≠ TCPSOCK_CLOSED ∧
      (s.disconnect false os).sendbuffer_.staged = [] ∧
      (s.disconnect false os).sendbuffer_.committed
        = s.sendbuffer_.committed ++ s.sendbuffer_.staged ∧
      (s.disconnect false os).sendbuffer_.committed ≠ []) ∧
    (∀ (t : TcpSocket) (k : Nat) (close : ErrorCode),
      t.state_ = TCPSOCK_CLOSING → k < t.sendbuffer_.committedSize →
      (t.handleSend none k close).state_ = TCPSOCK_CLOSING ∧
      (t.handleSend none k close).sendbuffer_.committed = t.sendbuffer_.committed.drop k ∧
      (t.handleSend none k close).sendbuffer_.committed ≠ []) ∧
    (∀ (t : TcpSocket) (a : Action),
      t.state_ = TCPSOCK_CLOSING → t.sendbuffer_.committed ≠ [] →
      (a.apply t).state_ = TCPSOCK_CLOSED →
      ∃ k close, a = Action.handleSend none k close ∧ t.sendbuffer_.committedSize ≤ k ∧
        (a.apply t).sendbuffer_.committed = []) ∧
    (∀ (t : TcpSocket) (k : Nat),
      t.state_ = TCPSOCK_CLOSING → t.sendbuffer_.committedSize ≤ k →
      (t.handleSend none k none).state_ = TCPSOCK_CLOSED) := by
  refine ⟨?_, ?_, ?_, ?_⟩
  · have hlen : 0 < s.sendbuffer_.committed.length + s.sendbuffer_.staged.length := by
      simp only [SendBuffer.totalSize] at hdata
      omega
    have hne : s.sendbuffer_.committed ++ s.sendbuffer_.staged ≠ [] := by
      intro h
      have h2 : (s.sendbuffer_.committed ++ s.sendbuffer_.staged).length = 0 := by
        rw [h]
        rfl
      rw [List.length_append] at h2
      omega
    rcases hstate with h | h
    · simp [disconnect, send, h, SendBuffer.commit]
      simpa using hne
    · cases hf : s.asyncSendInProgress_ <;>
        simp [disconnect, send, startAsyncSend, h, hf, SendBuffer.commit] <;>
        simpa using hne
  · intro t k close hcl hk
    simp only [SendBuffer.committedSize] at hk
    have hp : 0 < t.sendbuffer_.committed.length - k := by omega
    cases hf : t.asyncSendInProgress_ <;>
      simp [handleSend, startAsyncSend, hcl, SendBuffer.pop, SendBuffer.committedSize,
        hp, hf] <;> omega
  · intro t a hcl hne hclosed
    exact closing_reaches_closed_only_by_drain t a hcl hne hclosed
  · intro t k hcl hk
    simp only [SendBuffer.committedSize] at hk
    have hz : t.sendbuffer_.committed.length - k = 0 := by omega
    simp [handleSend, hcl, SendBuffer.pop, SendBuffer.committedSize, hz]

/-- C6 at a connected socket with two staged and one committed byte. -/
theorem disconnect_soft_defers_close_witness :
    (busySocket.disconnect false CloseOutcome.ok).state_ = TCPSOCK_CLOSING ∧
    (busySocket.disconnect false CloseOutcome.ok).sendbuffer_.committed = [3, 4, 5] :=
  ⟨(disconnect_soft_defers_close busySocket CloseOutcome.ok (Or.inr rfl)
      (by decide)).1.1,
    (disconnect_soft_defers_close busySocket CloseOutcome.ok (Or.inr rfl)
      (by decide)).1.2.2.2.1⟩

/-- Nothing is stored into an empty receive buffer. -/
theorem fillAt_nil (data : List Byte) : ∀ index : Nat, fillAt [] index data = [] := by
  induction data with
  | nil => intro index; rfl
  | cons x xs ih => intro index; simp [fillAt, ih]

/-- After `handleError` the socket is FAILED with empty buffers and a closed handle. -/
theorem failedClean_handleError (s : TcpSocket) (m : String) :
    FailedClean (s.handleError m) := by
  intro _
  simp [handleError_eq, SendBuffer.empty]

/-- The connect completion keeps a FAILED socket's buffers empty and its handle closed. -/
theorem failedClean_handleConnect (s : TcpSocket) (e : ErrorCode) (it : List Endpoint)
    (env : ConnectEnv) (h : FailedClean s) : FailedClean (s.handleConnect e it env) := by
  unfold handleConnect
  split
  · rename_i hg
    have hnf : s.state_ ≠ TCPSOCK_FAILED := by
      rcases hg with hg | hg <;> simp [hg]
    cases e with
    | none =>
      cases hn : env.nodelay with
      | some m =>
        simp only [disableNagle]
        have hfail : (s.handleError m).hasError = true := by
          simp [hasError, handleError_eq]
        simp only [hfail]
        exact failedClean_handleError _ _
      | none =>
        intro hf
        exfalso
        revert hf
        by_cases hpos : s.sendbuffer_.committedSize > 0 <;>
          rcases hg with hg | hg <;> cases env.close <;>
          cases hfl : s.asyncSendInProgress_ <;>
          simp [disableNagle, hasError, startAsyncSend, hg, hfl, hpos]
    | some m =>
      cases it with
      | nil => exact failedClean_handleError _ _
      | cons endpoint rest =>
        cases hc : env.close with
        | some cm => exact failedClean_handleError _ _
        | none =>
          intro hf
          exact absurd hf hnf
  · exact h

/-- The resolve completion keeps a FAILED socket's buffers empty and its handle closed. -/
theorem failedClean_handleResolve (s : TcpSocket) (e : ErrorCode) (it : List Endpoint)
    (env : ConnectEnv) (h : FailedClean s) : FailedClean (s.handleResolve e it env) := by
  unfold handleResolve
  split
  · cases e with
    | none => exact failedClean_handleConnect s hostNotFound it env h
    | some m => exact failedClean_handleError _ _
  · exact h

/-- Every step keeps a FAILED socket's buffers empty and its handle closed. -/
theorem failedClean_step (s : TcpSocket) (a : Action) (h : FailedClean s) :
    FailedClean (a.apply s) := by
  unfold FailedClean at h ⊢
  cases a with
  | write buffer =>
    simp only [Action.apply, write]
    split
    · split
      · exact failedClean_handleError _ _
      · rename_i hg _
        intro hf
        rcases hg with hg | hg <;> simp [hg] at hf
    · exact h
  | setSendbufferLimit m => exact h
  | send =>
    revert h
    cases hs : s.state_ <;> cases hfl : s.asyncSendInProgress_ <;>
      simp [Action.apply, send, startAsyncSend, hs, hfl, SendBuffer.commit]
  | receive n d =>
    simp only [Action.apply, receive]
    split
    · exact h
    · rename_i hg
      have hco : s.state_ = TCPSOCK_CONNECTED := by
        by_contra hc
        exact hg (Or.inr hc)
      have hfl : s.asyncReceiveInProgress_ = false := by
        cases hb : s.asyncReceiveInProgress_
        · rfl
        · exact absurd (Or.inl hb) hg
      by_cases hshort : s.receiveBuffer_.length < n
      · cases d with
        | availableThrows m =>
          simp only [hshort, if_true, nonblockReceiveAvailable, hg, if_false]
          exact failedClean_handleError _ _
        | readThrows k m =>
          simp only [hshort, if_true, nonblockReceiveAvailable, hg, if_false]
          exact failedClean_handleError _ _
        | ok data =>
          simp only [hshort, if_true, nonblockReceiveAvailable, hg, if_false]
          split <;> simp [startAsyncReceive, hco, hfl]
      · simp only [hshort, if_false]
        split <;> simp [startAsyncReceive, hco, hfl]
  | receiveAny d =>
    simp only [Action.apply, receiveAny]
    split
    · exact h
    · rename_i hg
      have hco : s.state_ = TCPSOCK_CONNECTED := by
        by_contra hc
        exact hg (Or.inr hc)
      cases d with
      | availableThrows m =>
        simp only [nonblockReceiveAvailable, hg, if_false]
        exact failedClean_handleError _ _
      | readThrows k m =>
        simp only [nonblockReceiveAvailable, hg, if_false]
        exact failedClean_handleError _ _
      | ok data =>
        have hfl : s.asyncReceiveInProgress_ = false := by
          cases hb : s.asyncReceiveInProgress_
          · rfl
          · exact absurd (Or.inl hb) hg
        simp [nonblockReceiveAvailable, hco, hfl]
  | isEof p =>
    revert h
    cases hs : s.state_ <;> cases p <;>
      simp [Action.apply, isEof, hs, handleError_eq, SendBuffer.empty] <;>
      split <;> simp [hs]
  | disconnect hard os =>
    revert h
    cases hs : s.state_ <;> cases hard <;> cases os <;> cases ho : s.socketOpen <;>
      cases hfl : s.asyncSendInProgress_ <;>
      simp [Action.apply, disconnect, send, startAsyncSend, hs, ho, hfl, handleError_eq,
        SendBuffer.empty, SendBuffer.commit]
  | handleResolve e it env =>
    simp only [Action.apply]
    exact failedClean_handleResolve s e it env h
  | handleConnect e it env =>
    simp only [Action.apply]
    exact failedClean_handleConnect s e it env h
  | handleSend e k close =>
    cases e with
    | some m =>
      simp only [Action.apply, handleSend]
      split
      · exact failedClean_handleError _ _
      · exact h
    | none =>
      revert h
      cases hs : s.state_ <;> cases close <;>
        simp [Action.apply, handleSend, startAsyncSend, hs, SendBuffer.pop] <;>
        split <;> simp [hs]
  | handleReceive e n =>
    cases e with
    | some m => exact failedClean_handleError _ _
    | none => exact h
  | asyncReadFill i d =>
    intro hf
    have hb := h hf
    simp [Action.apply, asyncReadFill, hb, fillAt_nil] at hf ⊢

/-- C10: every socket reachable from the three factories by public operations,
completion handlers and reactor stores satisfies: if it is FAILED, its staged
and committed send regions and its receive buffer are empty and its handle is
closed. -/
theorem failed_socket_is_clean (s : TcpSocket) (hreach : Reachable s) :
    s.state_ = TCPSOCK_FAILED →
      s.sendbuffer_.staged = [] ∧ s.sendbuffer_.committed = [] ∧
      s.getSendbufferSize = 0 ∧ s.receiveBuffer_ = [] ∧ s.socketOpen = false := by
  have hclean : FailedClean s := by
    induction hreach with
    | connectTo sendFlag recvFlag =>
      intro hf
      simp [connectTo, mk0, hasError] at hf
    | fromConnectedSocket sendFlag recvFlag nodelay =>
      cases nodelay with
      | none =>
        intro hf
        simp [fromConnectedSocket, disableNagle, mk0] at hf
      | some m => exact failedClean_handleError _ _
    | error message sendFlag recvFlag =>
      intro _
      simp [TcpSocket.error, mk0, SendBuffer.empty]
    | step s a _ ih => exact failedClean_step s a ih
  intro hf
  obtain ⟨h1, h2, h3, h4⟩ := hclean hf
  exact ⟨h1, h2, by simp [getSendbufferSize, SendBuffer.totalSize, h1, h2], h3, h4⟩

/-- A successful connect completion on a connecting socket with nothing committed. -/
theorem handleConnect_success (s : TcpSocket) (it : List Endpoint) (env : ConnectEnv)
    (hs : s.state_ = TCPSOCK_CONNECTING) (hc : s.sendbuffer_.committed = [])
    (hn : env.nodelay = none) :
    s.handleConnect none it env = { s with state_ := TCPSOCK_CONNECTED } := by
  simp [handleConnect, disableNagle, hasError, hs, hc, hn, SendBuffer.committedSize]

/-- A failed connect completion with a candidate left starts the next attempt. -/
theorem handleConnect_retry (s : TcpSocket) (m : String) (e : Endpoint)
    (rest : List Endpoint) (env : ConnectEnv)
    (hs : s.state_ = TCPSOCK_CONNECTING) (hcl : env.close = none) :
    s.handleConnect (some m) (e :: rest) env
      = { s with socketOpen := env.opened
                 started := s.started ++ [AsyncOp.connect e rest] } := by
  simp [handleConnect, hs, hcl]

/-- A failed connect completion with no candidate left fails the socket. -/
theorem handleConnect_exhausted (s : TcpSocket) (m : String) (env : ConnectEnv)
    (hs : s.state_ = TCPSOCK_CONNECTING) :
    s.handleConnect (some m) [] env = s.handleError m := by
  simp [handleConnect, hs]

/-- The log of connect attempts after a retry. -/
theorem connectsStarted_retry (s : TcpSocket) (m : String) (e : Endpoint)
    (rest : List Endpoint) (env : ConnectEnv)
    (hs : s.state_ = TCPSOCK_CONNECTING) (hcl : env.close = none) :
    connectsStarted (s.handleConnect (some m) (e :: rest) env)
      = connectsStarted s ++ [(e, rest)] := by
  rw [handleConnect_retry s m e rest env hs hcl]
  simp [connectsStarted, List.filterMap_append]

/-- The reactor delivers the completion of an attempt that was started. -/
theorem deliverConnects_cons (result : ErrorCode) (env : ConnectEnv)
    (script : List (ErrorCode × ConnectEnv)) (d : Nat) (s : TcpSocket) (e : Endpoint)
    (rest : List Endpoint) (hget : (connectsStarted s)[d]? = some (e, rest)) :
    deliverConnects ((result, env) :: script) d s
      = deliverConnects script (d + 1) (s.handleConnect result rest env) := by
  simp [deliverConnects, hget]

/-- With no attempt outstanding the reactor delivers nothing. -/
theorem deliverConnects_idle (script : List (ErrorCode × ConnectEnv)) (d : Nat)
    (s : TcpSocket) (h : (connectsStarted s).length ≤ d) :
    deliverConnects script d s = s := by
  cases script with
  | nil => rfl
  | cons p script =>
    obtain ⟨result, env⟩ := p
    simp [deliverConnects, List.getElem?_eq_none h]

/-- Completions up to the first success: the socket ends CONNECTED and exactly
one further candidate was tried per failure. -/
theorem deliverConnects_success (failures : List (ErrorCode × ConnectEnv)) :
    ∀ (s : TcpSocket) (d : Nat) (pre : List (Endpoint × List Endpoint)) (e : Endpoint)
      (rest : List Endpoint) (env : ConnectEnv) (later : List (ErrorCode × ConnectEnv)),
      s.state_ = TCPSOCK_CONNECTING → s.sendbuffer_.committed = [] →
      connectsStarted s = pre ++ [(e, rest)] → pre.length = d →
      failures.length ≤ rest.length →
      (∀ p ∈ failures, p.1 ≠ none ∧ p.2.close = none) → env.nodelay = none →
      (deliverConnects (failures ++ (none, env) :: later) d s).state_ = TCPSOCK_CONNECTED ∧
      attempted (deliverConnects (failures ++ (none, env) :: later) d s)
        = attempted s ++ rest.take failures.length := by
  induction failures with
  | nil =>
    intro s d pre e rest env later hs hc hlog hd _ _ hn
    have hget : (connectsStarted s)[d]? = some (e, rest) := by
      rw [hlog, ← hd]
      exact List.getElem?_concat_length pre (e, rest)
    have hidle : (connectsStarted { s with state_ := TCPSOCK_CONNECTED }).length ≤ d + 1 := by
      have : connectsStarted { s with state_ := TCPSOCK_CONNECTED } = connectsStarted s := rfl
      rw [this, hlog]
      simp [hd]
    rw [List.nil_append, deliverConnects_cons none env later d s e rest hget,
      handleConnect_success s rest env hs hc hn, deliverConnects_idle later (d + 1) _ hidle]
    simp [attempted, connectsStarted]
  | cons p fs ih =>
    intro s d pre e rest env later hs hc hlog hd hlen hfail hn
    obtain ⟨result, env1⟩ := p
    have hp := hfail (result, env1) (List.mem_cons_self _ _)
    cases result with
    | none => exact absurd rfl hp.1
    | some m =>
      cases rest with
      | nil => simp at hlen
      | cons e2 rest2 =>
        have hget : (connectsStarted s)[d]? = some (e, e2 :: rest2) := by
          rw [hlog, ← hd]
          exact List.getElem?_concat_length pre (e, e2 :: rest2)
        have hstep := handleConnect_retry s m e2 rest2 env1 hs hp.2
        have hlog2 : connectsStarted (s.handleConnect (some m) (e2 :: rest2) env1)
            = (pre ++ [(e, e2 :: rest2)]) ++ [(e2, rest2)] := by
          rw [connectsStarted_retry s m e2 rest2 env1 hs hp.2, hlog]
        have hih := ih (s.handleConnect (some m) (e2 :: rest2) env1) (d + 1)
          (pre ++ [(e, e2 :: rest2)]) e2 rest2 env later
          (by rw [hstep]; exact hs) (by rw [hstep]; exact hc) hlog2 (by simp [hd])
          (by simpa using hlen)
          (fun q hq => hfail q (List.mem_cons_of_mem _ hq)) hn
        rw [List.cons_append, deliverConnects_cons (some m) env1 _ d s e (e2 :: rest2) hget]
        refine ⟨hih.1, ?_⟩
        rw [hih.2]
        simp [attempted, hlog2, hlog]

/-- Completions that all fail, one per candidate: the socket ends FAILED and
every candidate was tried. -/
theorem deliverConnects_all_fail (script : List (ErrorCode × ConnectEnv)) :
    ∀ (s : TcpSocket) (d : Nat) (pre : List (Endpoint × List Endpoint)) (e : Endpoint)
      (rest : List Endpoint),
      s.state_ = TCPSOCK_CONNECTING →
      connectsStarted s = pre ++ [(e, rest)] → pre.length = d →
      script.length = rest.length + 1 →
      (∀ p ∈ script, p.1 ≠ none ∧ p.2.close = none) →
      (deliverConnects script d s).state_ = TCPSOCK_FAILED ∧
      attempted (deliverConnects script d s) = attempted s ++ rest := by
  induction script with
  | nil =>
    intro s d pre e rest _ _ _ hlen _
    simp at hlen
  | cons p ps ih =>
    intro s d pre e rest hs hlog hd hlen hfail
    obtain ⟨result, env1⟩ := p
    have hp := hfail (result, env1) (List.mem_cons_self _ _)
    have hget : (connectsStarted s)[d]? = some (e, rest) := by
      rw [hlog, ← hd]
      exact List.getElem?_concat_length pre (e, rest)
    cases result with
    | none => exact absurd rfl hp.1
    | some m =>
      cases rest with
      | nil =>
        have hps : ps = [] := by
          cases ps with
          | nil => rfl
          | cons _ _ => simp at hlen
        subst hps
        rw [deliverConnects_cons (some m) env1 [] d s e [] hget,
          handleConnect_exhausted s m env1 hs]
        simp [deliverConnects, handleError_eq, attempted, connectsStarted]
      | cons e2 rest2 =>
        have hstep := handleConnect_retry s m e2 rest2 env1 hs hp.2
        have hlog2 : connectsStarted (s.handleConnect (some m) (e2 :: rest2) env1)
            = (pre ++ [(e, e2 :: rest2)]) ++ [(e2, rest2)] := by
          rw [connectsStarted_retry s m e2 rest2 env1 hs hp.2, hlog]
        have hih := ih (s.handleConnect (some m) (e2 :: rest2) env1) (d + 1)
          (pre ++ [(e, e2 :: rest2)]) e2 rest2
          (by rw [hstep]; exact hs) hlog2 (by simp [hd])
          (by simpa using hlen)
          (fun q hq => hfail q (List.mem_cons_of_mem _ hq))
        rw [deliverConnects_cons (some m) env1 _ d s e (e2 :: rest2) hget]
        refine ⟨hih.1, ?_⟩
        rw [hih.2]
        simp [attempted, hlog2, hlog]

/-- C8: a socket made by `connectTo` with no other call on it, resolution
delivering the candidates in order and one connect outcome per candidate, with
closing the handle and setting no-delay succeeding.  If some attempt succeeds
after only failures, the socket ends CONNECTED with `hasError()` false and the
candidates tried are exactly those up to and including the first success (all
of them when the last one is the first to succeed).  If every attempt fails,
or there is no candidate, the socket ends FAILED. -/
theorem connect_first_success_wins (sendFlag recvFlag : Bool) (endpoints : List Endpoint)
    (resolveEnv : ConnectEnv) (script : List (ErrorCode × ConnectEnv))
    (hlen : script.length = endpoints.length)
    (hresolve : resolveEnv.close = none)
    (henv : ∀ p ∈ script, p.2.nodelay = none ∧ p.2.close = none) :
    (∀ (failures : List (ErrorCode × ConnectEnv)) (env : ConnectEnv)
        (later : List (ErrorCode × ConnectEnv)),
      script = failures ++ (none, env) :: later → (∀ p ∈ failures, p.1 ≠ none) →
      (connectScenario sendFlag recvFlag endpoints resolveEnv script).state_
        = TCPSOCK_CONNECTED ∧
      (connectScenario sendFlag recvFlag endpoints resolveEnv script).hasError = false ∧
      attempted (connectScenario sendFlag recvFlag endpoints resolveEnv script)
        = endpoints.take (failures.length + 1)) ∧
    ((∀ p ∈ script, p.1 ≠ none) →
      (connectScenario sendFlag recvFlag endpoints resolveEnv script).state_
        = TCPSOCK_FAILED ∧
      (connectScenario sendFlag recvFlag endpoints resolveEnv script).hasError = true ∧
      attempted (connectScenario sendFlag recvFlag endpoints resolveEnv script)
        = endpoints) := by
  cases endpoints with
  | nil =>
    have hnil : script = [] := List.length_eq_zero.mp hlen
    subst hnil
    constructor
    · intro failures env later hsplit _
      cases failures <;> simp at hsplit
    · intro _
      simp [connectScenario, deliverConnects, handleResolve, handleConnect, hostNotFound,
        connectTo, mk0, hasError, handleError_eq, attempted, connectsStarted]
  | cons e1 rest1 =>
    have hs1 : (connectTo sendFlag recvFlag).state_ = TCPSOCK_CONNECTING := by
      simp [connectTo, mk0, hasError]
    have hr : (connectTo sendFlag recvFlag).handleResolve none (e1 :: rest1) resolveEnv
        = (connectTo sendFlag recvFlag).handleConnect hostNotFound (e1 :: rest1)
            resolveEnv := by
      simp [handleResolve, hs1]
    have hstep := handleConnect_retry (connectTo sendFlag recvFlag)
      "Host not found (authoritative)" e1 rest1 resolveEnv hs1 hresolve
    have hlog : connectsStarted ((connectTo sendFlag recvFlag).handleConnect hostNotFound
        (e1 :: rest1) resolveEnv) = [] ++ [(e1, rest1)] := by
      rw [hostNotFound, connectsStarted_retry _ _ e1 rest1 resolveEnv hs1 hresolve]
      simp [connectsStarted, connectTo, mk0, hasError]
    have hst : ((connectTo sendFlag recvFlag).handleConnect hostNotFound
        (e1 :: rest1) resolveEnv).state_ = TCPSOCK_CONNECTING := by
      rw [hostNotFound, hstep]
      exact hs1
    have hcm : ((connectTo sendFlag recvFlag).handleConnect hostNotFound
        (e1 :: rest1) resolveEnv).sendbuffer_.committed = [] := by
      rw [hostNotFound, hstep]
      simp [connectTo, mk0, hasError, SendBuffer.empty]
    have hatt : attempted ((connectTo sendFlag recvFlag).handleConnect hostNotFound
        (e1 :: rest1) resolveEnv) = [e1] := by
      simp [attempted, hlog]
    constructor
    · intro failures env later hsplit hfail
      subst hsplit
      have hlen2 : failures.length ≤ rest1.length := by
        simp at hlen
        omega
      have hres := deliverConnects_success failures _ 0 [] e1 rest1 env later hst hcm hlog rfl
        hlen2
        (fun p hp => ⟨hfail p hp, (henv p (List.mem_append_left _ hp)).2⟩)
        (henv (none, env) (List.mem_append_right _ (List.mem_cons_self _ _))).1
      unfold connectScenario
      rw [hr]
      refine ⟨hres.1, by simp [hasError, hres.1], ?_⟩
      rw [hres.2, hatt]
      simp
    · intro hfail
      have hres := deliverConnects_all_fail script _ 0 [] e1 rest1 hst hlog rfl
        (by simpa using hlen) (fun p hp => ⟨hfail p hp, (henv p hp).2⟩)
      unfold connectScenario
      rw [hr]
      refine ⟨hres.1, by simp [hasError, hres.1], ?_⟩
      rw [hres.2, hatt]
      simp

/-- C8 with three candidates of which the first two fail: the socket ends
CONNECTED and all three were tried. -/
theorem connect_first_success_wins_witness :
    (connectScenario false false [10, 20, 30] calmEnv thirdTimeLucky).state_
      = TCPSOCK_CONNECTED ∧
    (connectScenario false false [10, 20, 30] calmEnv thirdTimeLucky).hasError = false ∧
    attempted (connectScenario false false [10, 20, 30] calmEnv thirdTimeLucky)
      = [10, 20, 30] :=
  (connect_first_success_wins false false [10, 20, 30] calmEnv thirdTimeLucky rfl rfl
    (by decide)).1
    [(some "Connection refused", calmEnv), (some "Connection timed out", calmEnv)]
    calmEnv [] rfl (by decide)

/-- A run of steps from a reachable socket ends in a reachable socket. -/
theorem reachable_runActions (acts : List Action) :
    ∀ s : TcpSocket, Reachable s → Reachable (runActions s acts) := by
  induction acts with
  | nil => intro s h; exact h
  | cons a rest ih => intro s h; exact ih _ (Reachable.step s a h)

/-- C10 at an accepted socket that held staged bytes, received bytes and a read
in flight when a write overran its limit. -/
theorem failed_socket_is_clean_witness :
    overrunSocket.state_ = TCPSOCK_FAILED ∧
    overrunSocket.sendbuffer_.staged = [] ∧ overrunSocket.sendbuffer_.committed = [] ∧
    overrunSocket.getSendbufferSize = 0 ∧ overrunSocket.receiveBuffer_ = [] ∧
    overrunSocket.socketOpen = false :=
  ⟨by decide,
    failed_socket_is_clean overrunSocket
      (reachable_runActions _ _ (Reachable.fromConnectedSocket false false none))
      (by decide)⟩

/-- Every reachable socket, if FAILED, has empty buffers and a closed handle. -/
theorem reachable_failedClean (s : TcpSocket) (hreach : Reachable s) : FailedClean s := by
  induction hreach with
  | connectTo sendFlag recvFlag =>
    intro hf
    simp [connectTo, mk0, hasError] at hf
  | fromConnectedSocket sendFlag recvFlag nodelay =>
    cases nodelay with
    | none =>
      intro hf
      simp [fromConnectedSocket, disableNagle, mk0] at hf
    | some m => exact failedClean_handleError _ _
  | error message sendFlag recvFlag =>
    intro _
    simp [TcpSocket.error, mk0, SendBuffer.empty]
  | step s a _ ih => exact failedClean_step s a ih

/-- C11: FAILED is absorbing and inert.  On every FAILED socket a program can
hold, every step (each public operation, each completion handler with or
without error, and a store by the reactor) leaves the state FAILED and the
error message, the send buffer and the receive buffer as they were;
`receive(amount)` returns no data, `receive()` returns an empty buffer and
`isEof` returns true. -/
theorem failed_is_inert (s : TcpSocket) (hreach : Reachable s)
    (hf : s.state_ = TCPSOCK_FAILED) :
    (∀ a : Action,
      (a.apply s).state_ = TCPSOCK_FAILED ∧
      (a.apply s).errorMessage_ = s.errorMessage_ ∧
      (a.apply s).sendbuffer_ = s.sendbuffer_ ∧
      (a.apply s).receiveBuffer_ = s.receiveBuffer_) ∧
    (∀ (ammount : Nat) (drain : DrainOutcome), (s.receive ammount drain).1 = none) ∧
    (∀ drain : DrainOutcome, (s.receiveAny drain).1 = []) ∧
    (∀ peek : PeekOutcome, (s.isEof peek).1 = true) := by
  obtain ⟨hst, hcm, hrb, _⟩ := reachable_failedClean s hreach hf
  have hsb : s.sendbuffer_ = SendBuffer.empty := by
    cases hb : s.sendbuffer_ with
    | mk staged committed =>
      rw [hb] at hst hcm
      simp only at hst hcm
      rw [hst, hcm]
      rfl
  refine ⟨?_, ?_, ?_, ?_⟩
  · intro a
    cases a with
    | write buffer => simp [Action.apply, write, hf]
    | setSendbufferLimit m => simp [Action.apply, setSendbufferLimit, hf]
    | send => simp [Action.apply, send, hf]
    | receive n d => simp [Action.apply, receive, hf]
    | receiveAny d => simp [Action.apply, receiveAny, hf]
    | isEof p => simp [Action.apply, isEof, hf]
    | disconnect hard os => simp [Action.apply, disconnect, hf]
    | handleResolve e it env => simp [Action.apply, handleResolve, hf]
    | handleConnect e it env => simp [Action.apply, handleConnect, hf]
    | handleSend e k close => simp [Action.apply, handleSend, hf]
    | handleReceive e n =>
      cases e with
      | none => simp [Action.apply, handleReceive, hf]
      | some m => simp [Action.apply, handleReceive, handleError_eq, hf, hsb, hrb]
    | asyncReadFill i d => simp [Action.apply, asyncReadFill, hf, hrb, fillAt_nil]
  · intro n d
    simp [receive, hf]
  · intro d
    simp [receiveAny, hf]
  · intro p
    simp [isEof, hf]

/-- C11 at a socket that failed on its limit: a later receive completion with
an error leaves it FAILED with the first message. -/
theorem failed_is_inert_witness :
    ((Action.handleReceive (some "Operation canceled") 0).apply overrunSocket).state_
      = TCPSOCK_FAILED ∧
    ((Action.handleReceive (some "Operation canceled") 0).apply overrunSocket).errorMessage_
      = overrunSocket.errorMessage_ :=
  ⟨((failed_is_inert overrunSocket
      (reachable_runActions _ _ (Reachable.fromConnectedSocket false false none))
      (by decide)).1 (Action.handleReceive (some "Operation canceled") 0)).1,
    ((failed_is_inert overrunSocket
      (reachable_runActions _ _ (Reachable.fromConnectedSocket false false none))
      (by decide)).1 (Action.handleReceive (some "Operation canceled") 0)).2.1⟩

/-- C13: the decision table of `isEof`.  CONNECTING gives false; CONNECTED with
buffered bytes or a receive in flight gives false; otherwise CONNECTED follows
the non-blocking peek: EOF gives true, would-block gives false, an available
byte gives false, and any other OS error (from the peek or from switching the
blocking mode) gives true and fails the socket with that error's message;
CLOSING, CLOSED and FAILED give true.  Except in the OS-error case the socket,
its state and receive buffer included, is left as it was. -/
theorem isEof_decision_table (s : TcpSocket) (peek : PeekOutcome) :
    (s.state_ = TCPSOCK_CONNECTING → s.isEof peek = (false, s)) ∧
    (s.state_ = TCPSOCK_CONNECTED →
      (s.receiveBuffer_ ≠ [] ∨ s.asyncReceiveInProgress_ = true) →
      s.isEof peek = (false, s)) ∧
    (s.state_ = TCPSOCK_CONNECTED → s.receiveBuffer_ = [] →
      s.asyncReceiveInProgress_ = false →
      (peek = PeekOutcome.eof → s.isEof peek = (true, s)) ∧
      (peek = PeekOutcome.wouldBlock → s.isEof peek = (false, s)) ∧
      (peek = PeekOutcome.noError → s.isEof peek = (false, s)) ∧
      (∀ m : String,
        (peek = PeekOutcome.otherError m ∨ peek = PeekOutcome.ioControlThrows m) →
        (s.isEof peek).1 = true ∧
        (s.isEof peek).2.state_ = TCPSOCK_FAILED ∧
        (s.isEof peek).2.getErrorMessage = m)) ∧
    ((s.state_ = TCPSOCK_CLOSING ∨ s.state_ = TCPSOCK_CLOSED ∨
        s.state_ = TCPSOCK_FAILED) →
      s.isEof peek = (true, s)) := by
  refine ⟨?_, ?_, ?_, ?_⟩
  · intro h
    simp [isEof, h]
  · intro h hbusy
    have hg : s.receiveBuffer_.length > 0 ∨ s.asyncReceiveInProgress_ = true := by
      rcases hbusy with hb | hb
      · exact Or.inl (List.length_pos.mpr hb)
      · exact Or.inr hb
    simp only [isEof, h]
    rw [if_pos hg]
  · intro h hempty hidle
    refine ⟨?_, ?_, ?_, ?_⟩
    · intro hp
      subst hp
      simp [isEof, h, hempty, hidle]
    · intro hp
      subst hp
      simp [isEof, h, hempty, hidle]
    · intro hp
      subst hp
      simp [isEof, h, hempty, hidle]
    · intro m hp
      rcases hp with hp | hp <;> subst hp <;>
        simp [isEof, h, hempty, hidle, handleError_eq, getErrorMessage]
  · intro h
    rcases h with h | h | h <;> simp [isEof, h]

/-- C14: on a CONNECTED socket with no receive in flight, with `B` the receive
buffer and a successful drain delivering `D` (possibly nothing), `receive()`
returns `B ++ D`, leaves the receive buffer empty, starts no read (the flag
stays false, the log of started operations is unchanged) and leaves the state
CONNECTED; a failing drain fails the socket with that error's message. -/
theorem receiveAny_drains (s : TcpSocket) (drain : DrainOutcome)
    (hstate : s.state_ = TCPSOCK_CONNECTED) (hidle : s.asyncReceiveInProgress_ = false) :
    (∀ D : List Byte, drain = DrainOutcome.ok D →
      s.receiveAny drain = (s.receiveBuffer_ ++ D, { s with receiveBuffer_ := [] }) ∧
      (s.receiveAny drain).2.receiveBuffer_ = [] ∧
      (s.receiveAny drain).2.asyncReceiveInProgress_ = false ∧
      (s.receiveAny drain).2.started = s.started ∧
      (s.receiveAny drain).2.state_ = TCPSOCK_CONNECTED) ∧
    (∀ m : String,
      (drain = DrainOutcome.availableThrows m ∨
        ∃ available, drain = DrainOutcome.readThrows available m) →
      (s.receiveAny drain).1 = [] ∧
      (s.receiveAny drain).2.state_ = TCPSOCK_FAILED ∧
      (s.receiveAny drain).2.getErrorMessage = m) := by
  constructor
  · intro D hD
    subst hD
    simp [receiveAny, nonblockReceiveAvailable, hstate, hidle]
  · intro m hfail
    rcases hfail with h | ⟨available, h⟩ <;> subst h <;>
      simp [receiveAny, nonblockReceiveAvailable, hstate, hidle, handleError_eq,
        getErrorMessage]

/-- C14 at a socket buffering three bytes with two more ready. -/
theorem receiveAny_drains_witness :
    busySocket.receiveAny (DrainOutcome.ok [13, 14])
      = ([10, 11, 12, 13, 14], { busySocket with receiveBuffer_ := [] }) :=
  ((receiveAny_drains busySocket (DrainOutcome.ok [13, 14]) rfl rfl).1 [13, 14] rfl).1

/-- Every step other than a receive completion carrying an error leaves a
CLOSED socket CLOSED with its error message unchanged. -/
theorem closed_kept_by_other_steps (s : TcpSocket) (a : Action)
    (hc : s.state_ = TCPSOCK_CLOSED)
    (hnot : ∀ (m : String) (n : Nat), a ≠ Action.handleReceive (some m) n) :
    (a.apply s).state_ = TCPSOCK_CLOSED ∧ (a.apply s).errorMessage_ = s.errorMessage_ := by
  cases a with
  | write buffer => simp [Action.apply, write, hc]
  | setSendbufferLimit m => simp [Action.apply, setSendbufferLimit, hc]
  | send => simp [Action.apply, send, hc]
  | receive n d => simp [Action.apply, receive, hc]
  | receiveAny d => simp [Action.apply, receiveAny, hc]
  | isEof p => simp [Action.apply, isEof, hc]
  | disconnect hard os => simp [Action.apply, disconnect, hc]
  | handleResolve e it env => simp [Action.apply, handleResolve, hc]
  | handleConnect e it env => simp [Action.apply, handleConnect, hc]
  | handleSend e k close => simp [Action.apply, handleSend, hc]
  | handleReceive e n =>
    cases e with
    | none => simp [Action.apply, handleReceive, hc]
    | some m => exact absurd rfl (hnot m n)
  | asyncReadFill i d => simp [Action.apply, asyncReadFill, hc]

/-- C12, evaluated where the code departs from it: a socket closed hard while a
read was in flight is CLOSED with no error message; the aborted read's
completion, which `handleReceive` does not guard by state, makes it FAILED with
the abort's message, whereas the same error delivered to `handleSend` leaves it
CLOSED. -/
theorem closed_socket_fails_on_aborted_receive :
    hardClosedSocket.state_ = TCPSOCK_CLOSED ∧
    hardClosedSocket.asyncReceiveInProgress_ = true ∧
    hardClosedSocket.errorMessage_ = "" ∧
    (hardClosedSocket.handleReceive (some "Operation canceled") 0).state_
      = TCPSOCK_FAILED ∧
    (hardClosedSocket.handleReceive (some "Operation canceled") 0).errorMessage_
      = "Operation canceled" ∧
    (hardClosedSocket.handleSend (some "Operation canceled") 0 none).state_
      = TCPSOCK_CLOSED := by
  decide

/-- C15, evaluated where the code departs from it: the constructors give the
send flag no initial value; a socket from `connectTo` whose flag reads true is
CONNECTING with two committed bytes after `write` and `send()`, and when the
connect attempt succeeds it becomes CONNECTED, but `startAsyncSend` sees the
flag set and starts no transmit although the committed region is non-empty. -/
theorem connect_success_with_stale_flag_starts_nothing :
    staleFlagSocket.state_ = TCPSOCK_CONNECTING ∧
    staleFlagSocket.sendbuffer_.committed = [1, 2] ∧
    staleFlagSocket.started = [AsyncOp.resolve] ∧
    (staleFlagSocket.handleConnect none [] calmEnv).state_ = TCPSOCK_CONNECTED ∧
    (staleFlagSocket.handleConnect none [] calmEnv).started = [AsyncOp.resolve] := by
  decide

/-- What `send()` and a connect success do, by the value of the send flag: on a
socket in CONNECTING, `send()` moves all staged bytes
behind the committed ones, with the total size, the state, the send flag and
the log of started operations unchanged.  When a connect attempt then succeeds
and setting no-delay succeeds, the state becomes CONNECTED, and a transmit of
the committed region is started exactly when that region is non-empty and the
send flag is not already set; otherwise nothing is started.  On a CONNECTED
socket `send()` moves the staged bytes to the committed region and leaves the
send flag set. -/
theorem send_then_connect (s : TcpSocket) :
    (s.state_ = TCPSOCK_CONNECTING →
      s.send.sendbuffer_.staged = [] ∧
      s.send.sendbuffer_.committed = s.sendbuffer_.committed ++ s.sendbuffer_.staged ∧
      s.send.getSendbufferSize = s.getSendbufferSize ∧
      s.send.started = s.started ∧
      s.send.asyncSendInProgress_ = s.asyncSendInProgress_ ∧
      s.send.state_ = TCPSOCK_CONNECTING) ∧
    (s.state_ = TCPSOCK_CONNECTING →
      ∀ (it : List Endpoint) (env : ConnectEnv), env.nodelay = none →
      (s.handleConnect none it env).state_ = TCPSOCK_CONNECTED ∧
      ((s.sendbuffer_.committed ≠ [] ∧ s.asyncSendInProgress_ = false) →
        (s.handleConnect none it env).started
          = s.started ++ [AsyncOp.writeSome s.sendbuffer_.committedSize] ∧
        (s.handleConnect none it env).asyncSendInProgress_ = true) ∧
      (¬ (s.sendbuffer_.committed ≠ [] ∧ s.asyncSendInProgress_ = false) →
        (s.handleConnect none it env).started = s.started ∧
        (s.handleConnect none it env).asyncSendInProgress_ = s.asyncSendInProgress_)) ∧
    (s.state_ = TCPSOCK_CONNECTED →
      s.send.sendbuffer_.staged = [] ∧
      s.send.sendbuffer_.committed = s.sendbuffer_.committed ++ s.sendbuffer_.staged ∧
      s.send.asyncSendInProgress_ = true ∧
      s.send.state_ = TCPSOCK_CONNECTED) := by
  refine ⟨?_, ?_, ?_⟩
  · intro h
    simp [send, h, SendBuffer.commit, getSendbufferSize, SendBuffer.totalSize]
    omega
  · intro h it env hn
    have hlen : s.sendbuffer_.committed ≠ [] ↔ 0 < s.sendbuffer_.committed.length :=
      List.length_pos.symm
    refine ⟨?_, ?_, ?_⟩
    · by_cases hpos : 0 < s.sendbuffer_.committed.length <;>
        cases hfl : s.asyncSendInProgress_ <;>
        simp [handleConnect, disableNagle, hasError, startAsyncSend, h, hn, hpos, hfl,
          SendBuffer.committedSize]
    · intro hc
      have hpos := hlen.mp hc.1
      simp [handleConnect, disableNagle, hasError, startAsyncSend, h, hn, hpos, hc.2,
        SendBuffer.committedSize]
    · intro hc
      by_cases hpos : 0 < s.sendbuffer_.committed.length
      · have hfl : s.asyncSendInProgress_ = true := by
          cases hb : s.asyncSendInProgress_
          · exact absurd ⟨hlen.mpr hpos, hb⟩ hc
          · rfl
        simp [handleConnect, disableNagle, hasError, startAsyncSend, h, hn, hpos, hfl,
          SendBuffer.committedSize]
      · simp [handleConnect, disableNagle, hasError, h, hn, hpos,
          SendBuffer.committedSize]
  · intro h
    cases hfl : s.asyncSendInProgress_ <;>
      simp [send, startAsyncSend, h, hfl, SendBuffer.commit]

/-- C16: the dual-stack `accept()`.  With nothing pending on either listener it
returns no socket and changes nothing.  Otherwise it returns a socket: for the
oldest connection of the preferred listener when that one has any, else for
the oldest of the other listener; and each time a connection is returned the
preference flips.  Connections arriving on v4, then v6, then v4, each accepted
before the next arrives, are returned in that order whatever the preference
was; when all three are pending at once they are returned in that order by an
acceptor that prefers v4 first. -/
theorem accept_dual_stack (c : CombinedTcpAcceptor) :
    ((c.v4Acceptor_.pending = [] ∧ c.v6Acceptor_.pending = []) → c.accept = (none, c)) ∧
    ((c.v4Acceptor_.pending ≠ [] ∨ c.v6Acceptor_.pending ≠ []) →
      ∃ conn, c.accept.1 = some conn ∧ c.accept.2.checkV6First_ = !c.checkV6First_) ∧
    (∀ conn rest, c.preferredPending = conn :: rest →
      c.accept.1 = some conn ∧ c.accept.2.preferredPending = c.otherPending ∧
      c.accept.2.otherPending = rest) ∧
    (∀ conn rest, c.preferredPending = [] → c.otherPending = conn :: rest →
      c.accept.1 = some conn ∧ c.accept.2.preferredPending = rest ∧
      c.accept.2.otherPending = []) ∧
    (∀ a b d : Connection,
      c.v4Acceptor_.pending = [] → c.v6Acceptor_.pending = [] →
      (c.arriveV4 a).accept.1 = some a ∧
      (((c.arriveV4 a).accept.2.arriveV6 b).accept).1 = some b ∧
      ((((c.arriveV4 a).accept.2.arriveV6 b).accept.2.arriveV4 d).accept).1 = some d ∧
      ((((c.arriveV4 a).accept.2.arriveV6 b).accept.2.arriveV4 d).accept).2
        = { c with checkV6First_ := !c.checkV6First_ }) ∧
    (∀ a b d : Connection,
      c.v4Acceptor_.pending = [a, d] → c.v6Acceptor_.pending = [b] →
      c.checkV6First_ = false →
      c.accept.1 = some a ∧ c.accept.2.accept.1 = some b ∧
      c.accept.2.accept.2.accept.1 = some d ∧
      c.accept.2.accept.2.accept.2.accept = (none, c.accept.2.accept.2.accept.2)) := by
  obtain ⟨⟨p4⟩, ⟨p6⟩, pref⟩ := c
  refine ⟨?_, ?_, ?_, ?_, ?_, ?_⟩
  · rintro ⟨h4, h6⟩
    simp only at h4 h6
    subst h4 h6
    cases pref <;> rfl
  · intro h
    cases pref <;> cases p4 <;> cases p6 <;>
      simp [CombinedTcpAcceptor.accept, TcpAcceptor.accept] at h ⊢
  · intro conn rest h
    cases pref <;> cases p4 <;> cases p6 <;>
      simp_all [CombinedTcpAcceptor.accept, TcpAcceptor.accept,
        CombinedTcpAcceptor.preferredPending, CombinedTcpAcceptor.otherPending]
  · intro conn rest h1 h2
    cases pref <;> cases p4 <;> cases p6 <;>
      simp_all [CombinedTcpAcceptor.accept, TcpAcceptor.accept,
        CombinedTcpAcceptor.preferredPending, CombinedTcpAcceptor.otherPending]
  · intro a b d h4 h6
    simp only at h4 h6
    subst h4 h6
    cases pref <;> exact ⟨rfl, rfl, rfl, rfl⟩
  · intro a b d h4 h6 hp
    simp only at h4 h6 hp
    subst h4 h6 hp
    exact ⟨rfl, rfl, rfl, rfl⟩

/-- A socket with the same log and flags has the same footprint. -/
theorem footprint_of_same (s r : TcpSocket) (h1 : r.started = s.started)
    (h2 : r.asyncSendInProgress_ = s.asyncSendInProgress_)
    (h3 : r.asyncReceiveInProgress_ = s.asyncReceiveInProgress_) : Footprint s r :=
  Or.inl ⟨h1, h2, h3⟩

/-- Failing a socket starts nothing and leaves both in-flight flags. -/
theorem footprint_handleError (s : TcpSocket) (m : String) :
    Footprint s (s.handleError m) := by
  apply footprint_of_same <;> simp [handleError_eq]

/-- The footprint only looks at the log and the flags of the earlier socket. -/
theorem footprint_congr (s s1 r : TcpSocket) (h1 : s1.started = s.started)
    (h2 : s1.asyncSendInProgress_ = s.asyncSendInProgress_)
    (h3 : s1.asyncReceiveInProgress_ = s.asyncReceiveInProgress_)
    (h : Footprint s1 r) : Footprint s r := by
  unfold Footprint at h ⊢
  rw [h1, h2, h3] at h
  exact h

/-- The call `startAsyncSend` does nothing or starts a transmit. -/
theorem footprint_startAsyncSend (s : TcpSocket) : Footprint s s.startAsyncSend := by
  cases hf : s.asyncSendInProgress_
  · right; left
    simp [startAsyncSend, hf]
  · left
    simp [startAsyncSend, hf]

/-- The call `startAsyncReceive` does nothing or starts a read. -/
theorem footprint_startAsyncReceive (s : TcpSocket) (n : Nat) :
    Footprint s (s.startAsyncReceive n) := by
  cases hf : s.asyncReceiveInProgress_
  · right; right; left
    simp [startAsyncReceive, hf]
  · left
    simp [startAsyncReceive, hf]

/-- The footprint of `send()`. -/
theorem footprint_send (s : TcpSocket) : Footprint s s.send := by
  by_cases hc : s.state_ = TCPSOCK_CONNECTED
  · have h : s.send = ({ s with sendbuffer_ := s.sendbuffer_.commit }).startAsyncSend := by
      simp [send, hc]
    rw [h]
    exact footprint_congr s _ _ rfl rfl rfl (footprint_startAsyncSend _)
  · by_cases hg : s.state_ = TCPSOCK_CONNECTING
    · have h : s.send = { s with sendbuffer_ := s.sendbuffer_.commit } := by
        simp [send, hg]
      rw [h]
      exact footprint_of_same _ _ rfl rfl rfl
    · have h : s.send = s := by
        simp [send, hc, hg]
      rw [h]
      exact footprint_of_same _ _ rfl rfl rfl

/-- The drain inside `receive` starts nothing and leaves both flags. -/
theorem nonblockReceiveAvailable_same (s : TcpSocket) (d : DrainOutcome) :
    (s.nonblockReceiveAvailable d).1.started = s.started ∧
    (s.nonblockReceiveAvailable d).1.asyncSendInProgress_ = s.asyncSendInProgress_ ∧
    (s.nonblockReceiveAvailable d).1.asyncReceiveInProgress_
      = s.asyncReceiveInProgress_ := by
  unfold nonblockReceiveAvailable
  split
  · exact ⟨rfl, rfl, rfl⟩
  · cases d <;> exact ⟨rfl, rfl, rfl⟩

/-- The footprint of `receive(amount)`. -/
theorem footprint_receive (s : TcpSocket) (n : Nat) (d : DrainOutcome) :
    Footprint s (s.receive n d).2 := by
  unfold receive
  split
  · exact footprint_of_same _ _ rfl rfl rfl
  · have hp : ∀ p : TcpSocket × Option String,
        p = (if s.receiveBuffer_.length < n then s.nonblockReceiveAvailable d
          else (s, none)) →
        p.1.started = s.started ∧ p.1.asyncSendInProgress_ = s.asyncSendInProgress_ ∧
        p.1.asyncReceiveInProgress_ = s.asyncReceiveInProgress_ := by
      intro p hp
      subst hp
      split
      · exact nonblockReceiveAvailable_same s d
      · exact ⟨rfl, rfl, rfl⟩
    generalize (if s.receiveBuffer_.length < n then s.nonblockReceiveAvailable d
      else (s, none)) = p at hp
    obtain ⟨h1, h2, h3⟩ := hp p rfl
    obtain ⟨s1, e⟩ := p
    simp only at h1 h2 h3
    cases e with
    | some m => exact footprint_congr s s1 _ h1 h2 h3 (footprint_handleError s1 m)
    | none =>
      simp only
      split
      · exact footprint_of_same _ _ h1 h2 h3
      · exact footprint_congr s s1 _ h1 h2 h3 (footprint_startAsyncReceive s1 _)

/-- The footprint of `receive()`. -/
theorem footprint_receiveAny (s : TcpSocket) (d : DrainOutcome) :
    Footprint s (s.receiveAny d).2 := by
  unfold receiveAny
  split
  · exact footprint_of_same _ _ rfl rfl rfl
  · obtain ⟨h1, h2, h3⟩ := nonblockReceiveAvailable_same s d
    generalize s.nonblockReceiveAvailable d = p at h1 h2 h3
    obtain ⟨s1, e⟩ := p
    simp only at h1 h2 h3
    cases e with
    | some m => exact footprint_congr s s1 _ h1 h2 h3 (footprint_handleError s1 m)
    | none => exact footprint_of_same _ _ h1 h2 h3

/-- The footprint of `isEof`. -/
theorem footprint_isEof (s : TcpSocket) (p : PeekOutcome) : Footprint s (s.isEof p).2 := by
  unfold isEof
  split
  · exact footprint_of_same _ _ rfl rfl rfl
  · split
    · exact footprint_of_same _ _ rfl rfl rfl
    · cases p
      · exact footprint_handleError _ _
      · exact footprint_of_same _ _ rfl rfl rfl
      · exact footprint_of_same _ _ rfl rfl rfl
      · exact footprint_handleError _ _
      · exact footprint_of_same _ _ rfl rfl rfl
  · exact footprint_of_same _ _ rfl rfl rfl

/-- The footprint of `disconnect`. -/
theorem footprint_disconnect (s : TcpSocket) (hard : Bool) (os : CloseOutcome) :
    Footprint s (s.disconnect hard os) := by
  unfold disconnect
  split
  · split
    · split
      · cases os
        · exact footprint_of_same _ _ rfl rfl rfl
        · exact footprint_handleError _ _
        · exact footprint_handleError _ _
        · exact footprint_congr s { s with socketOpen := false } _ rfl rfl rfl
            (footprint_handleError _ _)
      · exact footprint_of_same _ _ rfl rfl rfl
    · have h := footprint_send s
      unfold Footprint at h ⊢
      exact h
  · exact footprint_of_same _ _ rfl rfl rfl

/-- The footprint of `handleConnect`. -/
theorem footprint_handleConnect (s : TcpSocket) (e : ErrorCode) (it : List Endpoint)
    (env : ConnectEnv) : Footprint s (s.handleConnect e it env) := by
  by_cases hg : s.state_ = TCPSOCK_CONNECTING ∨ s.state_ = TCPSOCK_CLOSING
  swap
  · have h : s.handleConnect e it env = s := by
      unfold handleConnect
      rw [if_neg hg]
    rw [h]
    exact footprint_of_same _ _ rfl rfl rfl
  cases e with
  | some m =>
    cases it with
    | nil =>
      have h : s.handleConnect (some m) [] env = s.handleError m := by
        unfold handleConnect
        rw [if_pos hg]
      rw [h]
      exact footprint_handleError _ _
    | cons endpoint rest =>
      cases hc : env.close with
      | some cm =>
        have h : s.handleConnect (some m) (endpoint :: rest) env
            = ({ s with socketOpen := false }).handleError cm := by
          unfold handleConnect
          rw [if_pos hg]
          simp only [hc]
        rw [h]
        exact footprint_congr s { s with socketOpen := false } _ rfl rfl rfl
          (footprint_handleError _ _)
      | none =>
        have h : s.handleConnect (some m) (endpoint :: rest) env
            = { s with socketOpen := env.opened
                       started := s.started ++ [AsyncOp.connect endpoint rest] } := by
          unfold handleConnect
          rw [if_pos hg]
          simp only [hc]
        rw [h]
        right; right; right
        exact ⟨rfl, rfl, endpoint, rest, rfl⟩
  | none =>
    cases hn : env.nodelay with
    | some m =>
      have h : s.handleConnect none it env = s.handleError m := by
        simp [handleConnect, hg, hn, disableNagle, hasError, handleError_eq]
      rw [h]
      exact footprint_handleError _ _
    | none =>
      by_cases hpos : s.sendbuffer_.committedSize > 0
      · rcases hg with hg | hg
        · have h : s.handleConnect none it env
              = ({ s with state_ := TCPSOCK_CONNECTED }).startAsyncSend := by
            simp [handleConnect, hg, hn, disableNagle, hasError, hpos]
          rw [h]
          exact footprint_congr s _ _ rfl rfl rfl (footprint_startAsyncSend _)
        · have h : s.handleConnect none it env = s.startAsyncSend := by
            simp [handleConnect, hg, hn, disableNagle, hasError, hpos]
          rw [h]
          exact footprint_startAsyncSend _
      · rcases hg with hg | hg
        · have h : s.handleConnect none it env = { s with state_ := TCPSOCK_CONNECTED } := by
            simp [handleConnect, hg, hn, disableNagle, hasError, hpos]
          rw [h]
          exact footprint_of_same _ _ rfl rfl rfl
        · cases hc : env.close with
          | none =>
            have h : s.handleConnect none it env
                = { s with socketOpen := false, state_ := TCPSOCK_CLOSED } := by
              simp [handleConnect, hg, hn, hc, disableNagle, hasError, hpos]
            rw [h]
            exact footprint_of_same _ _ rfl rfl rfl
          | some cm =>
            have h : s.handleConnect none it env = { s with socketOpen := false } := by
              simp [handleConnect, hg, hn, hc, disableNagle, hasError, hpos]
            rw [h]
            exact footprint_of_same _ _ rfl rfl rfl

/-- The footprint of `handleResolve`. -/
theorem footprint_handleResolve (s : TcpSocket) (e : ErrorCode) (it : List Endpoint)
    (env : ConnectEnv) : Footprint s (s.handleResolve e it env) := by
  unfold handleResolve
  split
  · cases e with
    | none => exact footprint_handleConnect s hostNotFound it env
    | some m => exact footprint_handleError _ _
  · exact footprint_of_same _ _ rfl rfl rfl

/-- The footprint of a send completion, counted from the cleared send flag. -/
theorem footprint_handleSend (s : TcpSocket) (e : ErrorCode) (k : Nat) (close : ErrorCode) :
    Footprint { s with asyncSendInProgress_ := false } (s.handleSend e k close) := by
  unfold handleSend
  simp only
  split
  · cases e with
    | some m => exact footprint_handleError _ _
    | none =>
      simp only
      split
      · exact footprint_congr _ _ _ rfl rfl rfl (footprint_startAsyncSend _)
      · split
        · cases close <;> exact footprint_of_same _ _ rfl rfl rfl
        · exact footprint_of_same _ _ rfl rfl rfl
  · exact footprint_of_same _ _ rfl rfl rfl

/-- The footprint of a receive completion, counted from the cleared receive flag. -/
theorem footprint_handleReceive (s : TcpSocket) (e : ErrorCode) (n : Nat) :
    Footprint { s with asyncReceiveInProgress_ := false } (s.handleReceive e n) := by
  unfold handleReceive
  cases e with
  | some m => exact footprint_handleError _ _
  | none => exact footprint_of_same _ _ rfl rfl rfl

/-- The footprint of `write`. -/
theorem footprint_write (s : TcpSocket) (buffer : List Byte) :
    Footprint s (s.write buffer) := by
  unfold write
  split
  · split
    · exact footprint_handleError _ _
    · exact footprint_of_same _ _ rfl rfl rfl
  · exact footprint_of_same _ _ rfl rfl rfl

/-- Every step other than a send or receive completion has a footprint. -/
theorem footprint_step (s : TcpSocket) (a : Action)
    (hs : ∀ e k c, a ≠ Action.handleSend e k c)
    (hr : ∀ e n, a ≠ Action.handleReceive e n) : Footprint s (a.apply s) := by
  cases a with
  | write buffer => exact footprint_write s buffer
  | setSendbufferLimit m => exact footprint_of_same _ _ rfl rfl rfl
  | send => exact footprint_send s
  | receive n d => exact footprint_receive s n d
  | receiveAny d => exact footprint_receiveAny s d
  | isEof p => exact footprint_isEof s p
  | disconnect hard os => exact footprint_disconnect s hard os
  | handleResolve e it env => exact footprint_handleResolve s e it env
  | handleConnect e it env => exact footprint_handleConnect s e it env
  | handleSend e k close => exact absurd rfl (hs e k close)
  | handleReceive e n => exact absurd rfl (hr e n)
  | asyncReadFill i d => exact footprint_of_same _ _ rfl rfl rfl

/-- A footprint starts a transmit exactly when it sets the send flag, and a
read exactly when it sets the receive flag. -/
theorem footprint_balance (s r : TcpSocket) (h : Footprint s r) :
    sendsStarted r + s.asyncSendInProgress_.toNat
      = sendsStarted s + r.asyncSendInProgress_.toNat ∧
    receivesStarted r + s.asyncReceiveInProgress_.toNat
      = receivesStarted s + r.asyncReceiveInProgress_.toNat := by
  unfold sendsStarted receivesStarted
  rcases h with ⟨h1, h2, h3⟩ | ⟨h1, h2, h3, n, h4⟩ | ⟨h1, h2, h3, i, k, h4⟩ |
    ⟨h2, h3, e, rest, h4⟩
  · rw [h1, h2, h3]
    exact ⟨rfl, rfl⟩
  · rw [h4, h1, h2, h3]
    simp [List.countP_append, AsyncOp.isWriteSome, AsyncOp.isRead]
  · rw [h4, h1, h2, h3]
    simp [List.countP_append, AsyncOp.isWriteSome, AsyncOp.isRead]
  · rw [h4, h2, h3]
    simp [List.countP_append, AsyncOp.isWriteSome, AsyncOp.isRead]

/-- A footprint on the socket keeps the flags in agreement with the reactor. -/
theorem flagsMatch_of_footprint (w : World) (r : TcpSocket) (h : w.FlagsMatch)
    (hf : Footprint w.socket r) : World.FlagsMatch { w with socket := r } := by
  obtain ⟨hsend, hrecv⟩ := h
  obtain ⟨b1, b2⟩ := footprint_balance _ _ hf
  constructor
  · show sendsStarted r = w.sendsDone + r.asyncSendInProgress_.toNat
    omega
  · show receivesStarted r = w.receivesDone + r.asyncReceiveInProgress_.toNat
    omega

/-- Every step that can happen keeps the flags in agreement with the reactor. -/
theorem flagsMatch_step (w : World) (a : Action) (h : w.FlagsMatch)
    (hen : w.enabled a = true) : (w.step a).FlagsMatch := by
  obtain ⟨hsend, hrecv⟩ := h
  cases a with
  | handleSend e k close =>
    have hout : 0 < sendsStarted w.socket - w.sendsDone := by
      simpa [World.enabled, World.outstandingSends] using hen
    have hflag : w.socket.asyncSendInProgress_ = true := by
      cases hb : w.socket.asyncSendInProgress_
      · rw [hb] at hsend
        simp at hsend
        omega
      · rfl
    obtain ⟨b1, b2⟩ := footprint_balance _ _ (footprint_handleSend w.socket e k close)
    simp only [Bool.toNat_false] at b1
    have b1s : sendsStarted { w.socket with asyncSendInProgress_ := false }
        = sendsStarted w.socket := rfl
    have b2s : receivesStarted { w.socket with asyncSendInProgress_ := false }
        = receivesStarted w.socket := rfl
    rw [b1s] at b1
    rw [b2s] at b2
    rw [hflag] at hsend
    simp only [Bool.toNat_true] at hsend
    constructor
    · show sendsStarted (w.socket.handleSend e k close)
        = w.sendsDone + 1 + (w.socket.handleSend e k close).asyncSendInProgress_.toNat
      omega
    · show receivesStarted (w.socket.handleSend e k close)
        = w.receivesDone + (w.socket.handleSend e k close).asyncReceiveInProgress_.toNat
      have b2f : ({ w.socket with asyncSendInProgress_ := false } : TcpSocket).asyncReceiveInProgress_
          = w.socket.asyncReceiveInProgress_ := rfl
      rw [b2f] at b2
      omega
  | handleReceive e n =>
    have hout : 0 < receivesStarted w.socket - w.receivesDone := by
      simpa [World.enabled, World.outstandingReceives] using hen
    have hflag : w.socket.asyncReceiveInProgress_ = true := by
      cases hb : w.socket.asyncReceiveInProgress_
      · rw [hb] at hrecv
        simp at hrecv
        omega
      · rfl
    obtain ⟨b1, b2⟩ := footprint_balance _ _ (footprint_handleReceive w.socket e n)
    simp only [Bool.toNat_false] at b2
    have b1s : sendsStarted { w.socket with asyncReceiveInProgress_ := false }
        = sendsStarted w.socket := rfl
    have b2s : receivesStarted { w.socket with asyncReceiveInProgress_ := false }
        = receivesStarted w.socket := rfl
    have b1f : ({ w.socket with asyncReceiveInProgress_ := false } : TcpSocket).asyncSendInProgress_
        = w.socket.asyncSendInProgress_ := rfl
    rw [b1s, b1f] at b1
    rw [b2s] at b2
    rw [hflag] at hrecv
    simp only [Bool.toNat_true] at hrecv
    constructor
    · show sendsStarted (w.socket.handleReceive e n)
        = w.sendsDone + (w.socket.handleReceive e n).asyncSendInProgress_.toNat
      omega
    · show receivesStarted (w.socket.handleReceive e n)
        = w.receivesDone + 1 + (w.socket.handleReceive e n).asyncReceiveInProgress_.toNat
      omega
  | write buffer =>
    exact flagsMatch_of_footprint w _ ⟨hsend, hrecv⟩ (footprint_write w.socket buffer)
  | setSendbufferLimit m => exact ⟨hsend, hrecv⟩
  | send => exact flagsMatch_of_footprint w _ ⟨hsend, hrecv⟩ (footprint_send w.socket)
  | receive n d =>
    exact flagsMatch_of_footprint w _ ⟨hsend, hrecv⟩ (footprint_receive w.socket n d)
  | receiveAny d =>
    exact flagsMatch_of_footprint w _ ⟨hsend, hrecv⟩ (footprint_receiveAny w.socket d)
  | isEof p =>
    exact flagsMatch_of_footprint w _ ⟨hsend, hrecv⟩ (footprint_isEof w.socket p)
  | disconnect hard os =>
    exact flagsMatch_of_footprint w _ ⟨hsend, hrecv⟩ (footprint_disconnect w.socket hard os)
  | handleResolve e it env =>
    obtain ⟨b1, b2⟩ := footprint_balance _ _ (footprint_handleResolve w.socket e it env)
    constructor
    · show sendsStarted (w.socket.handleResolve e it env)
        = w.sendsDone + (w.socket.handleResolve e it env).asyncSendInProgress_.toNat
      omega
    · show receivesStarted (w.socket.handleResolve e it env)
        = w.receivesDone + (w.socket.handleResolve e it env).asyncReceiveInProgress_.toNat
      omega
  | handleConnect e it env =>
    obtain ⟨b1, b2⟩ := footprint_balance _ _ (footprint_handleConnect w.socket e it env)
    constructor
    · show sendsStarted (w.socket.handleConnect e it env)
        = w.sendsDone + (w.socket.handleConnect e it env).asyncSendInProgress_.toNat
      omega
    · show receivesStarted (w.socket.handleConnect e it env)
        = w.receivesDone + (w.socket.handleConnect e it env).asyncReceiveInProgress_.toNat
      omega
  | asyncReadFill i d => exact ⟨hsend, hrecv⟩

/-- In every world that can arise the flags agree with the reactor. -/
theorem reachable_flagsMatch (w : World) (h : World.Reachable w) : w.FlagsMatch := by
  induction h with
  | connectTo => exact ⟨rfl, rfl⟩
  | fromConnectedSocket nodelay =>
    cases nodelay with
    | none => exact ⟨rfl, rfl⟩
    | some m =>
      constructor <;>
        simp [World.start, fromConnectedSocket, disableNagle, handleError_eq, mk0,
          sendsStarted, receivesStarted]
  | error message => exact ⟨rfl, rfl⟩
  | step w a _ hen ih => exact flagsMatch_step w a ih hen

/-- C17: in every world reachable from a factory-made socket whose in-flight
flags start false, by public operations and by completions delivered only for
operations that were started, at most one transmit is outstanding, and exactly
one when the send flag is set; at most one read is outstanding, and exactly one
when the receive flag is set. -/
theorem at_most_one_in_flight (w : World) (hreach : World.Reachable w) :
    w.outstandingSends ≤ 1 ∧
    (w.outstandingSends = 1 ↔ w.socket.asyncSendInProgress_ = true) ∧
    w.outstandingReceives ≤ 1 ∧
    (w.outstandingReceives = 1 ↔ w.socket.asyncReceiveInProgress_ = true) := by
  obtain ⟨hsend, hrecv⟩ := reachable_flagsMatch w hreach
  unfold World.outstandingSends World.outstandingReceives
  cases hs : w.socket.asyncSendInProgress_ <;> cases hr : w.socket.asyncReceiveInProgress_ <;>
    rw [hs] at hsend <;> rw [hr] at hrecv <;> simp at hsend hrecv <;>
    refine ⟨by omega, ?_, by omega, ?_⟩ <;> simp <;> omega

/-- A run of steps that can happen leads from a world that can arise to one
that can arise. -/
theorem World.reachable_run (acts : List Action) :
    ∀ w : World, World.Reachable w → w.runEnabled acts = true →
      World.Reachable (w.run acts) := by
  induction acts with
  | nil => intro w h _; exact h
  | cons a rest ih =>
    intro w h hen
    simp only [World.runEnabled, Bool.and_eq_true] at hen
    exact ih _ (World.Reachable.step w a h hen.1) hen.2

/-- C17 at an accepted socket with one transmit and one read outstanding. -/
theorem at_most_one_in_flight_witness :
    busyWorld.outstandingSends ≤ 1 ∧
    (busyWorld.outstandingSends = 1 ↔ busyWorld.socket.asyncSendInProgress_ = true) ∧
    busyWorld.outstandingReceives ≤ 1 ∧
    (busyWorld.outstandingReceives = 1 ↔
      busyWorld.socket.asyncReceiveInProgress_ = true) :=
  at_most_one_in_flight busyWorld
    (World.reachable_run _ _ (World.Reachable.fromConnectedSocket none) (by decide))

/-- C19, evaluated where the code departs from it: an accepted socket whose
flags started false writes two bytes and is closed softly; the transmit
completes with both bytes sent, the deferred `socket_->close()` throws, and the
socket is left CLOSING with no resolve or connect completion to come, no
transmit outstanding and the send flag clear. -/
theorem deferred_close_stranded_when_close_throws :
    World.Reachable strandedWorld ∧
    strandedWorld.socket.state_ = TCPSOCK_CLOSING ∧
    strandedWorld.connectPending = false ∧
    strandedWorld.outstandingSends = 0 ∧
    strandedWorld.socket.asyncSendInProgress_ = false ∧
    strandedWorld.socket.socketOpen = false :=
  ⟨World.reachable_run _ _ (World.Reachable.fromConnectedSocket none) (by decide),
    by decide, by decide, by decide, by decide, by decide⟩

/-- Failing a socket is quiet. -/
theorem quiet_handleError (s : TcpSocket) (m : String) : Quiet s (s.handleError m) := by
  constructor
  · right
    simp [handleError_eq]
  · simp [handleError_eq]

/-- A socket that keeps the state and the send flag is quiet. -/
theorem quiet_of_same (s r : TcpSocket) (h1 : r.state_ = s.state_)
    (h2 : r.asyncSendInProgress_ = s.asyncSendInProgress_) : Quiet s r :=
  ⟨Or.inl h1, h2⟩

/-- Quietness only looks at the state and the send flag of the earlier socket. -/
theorem quiet_congr (s s1 r : TcpSocket) (h1 : s1.state_ = s.state_)
    (h2 : s1.asyncSendInProgress_ = s.asyncSendInProgress_) (h : Quiet s1 r) :
    Quiet s r := by
  unfold Quiet at h ⊢
  rw [h1, h2] at h
  exact h

/-- The operation `write` is quiet. -/
theorem quiet_write (s : TcpSocket) (buffer : List Byte) : Quiet s (s.write buffer) := by
  unfold write
  split
  · split
    · exact quiet_handleError _ _
    · exact quiet_of_same _ _ rfl rfl
  · exact quiet_of_same _ _ rfl rfl

/-- The drain inside `receive` keeps the state and the send flag. -/
theorem nonblockReceiveAvailable_quiet (s : TcpSocket) (d : DrainOutcome) :
    (s.nonblockReceiveAvailable d).1.state_ = s.state_ ∧
    (s.nonblockReceiveAvailable d).1.asyncSendInProgress_ = s.asyncSendInProgress_ := by
  unfold nonblockReceiveAvailable
  split
  · exact ⟨rfl, rfl⟩
  · cases d <;> exact ⟨rfl, rfl⟩

/-- The call `startAsyncReceive` keeps the state and the send flag. -/
theorem startAsyncReceive_quiet (s : TcpSocket) (n : Nat) :
    Quiet s (s.startAsyncReceive n) := by
  unfold startAsyncReceive
  split <;> exact quiet_of_same _ _ rfl rfl

/-- The operation `receive(amount)` is quiet. -/
theorem quiet_receive (s : TcpSocket) (n : Nat) (d : DrainOutcome) :
    Quiet s (s.receive n d).2 := by
  unfold receive
  split
  · exact quiet_of_same _ _ rfl rfl
  · have hp : ∀ p : TcpSocket × Option String,
        p = (if s.receiveBuffer_.length < n then s.nonblockReceiveAvailable d
          else (s, none)) →
        p.1.state_ = s.state_ ∧ p.1.asyncSendInProgress_ = s.asyncSendInProgress_ := by
      intro p hp
      subst hp
      split
      · exact nonblockReceiveAvailable_quiet s d
      · exact ⟨rfl, rfl⟩
    generalize (if s.receiveBuffer_.length < n then s.nonblockReceiveAvailable d
      else (s, none)) = p at hp
    obtain ⟨h1, h2⟩ := hp p rfl
    obtain ⟨s1, e⟩ := p
    simp only at h1 h2
    cases e with
    | some m => exact quiet_congr s s1 _ h1 h2 (quiet_handleError s1 m)
    | none =>
      simp only
      split
      · exact quiet_of_same _ _ h1 h2
      · exact quiet_congr s s1 _ h1 h2 (startAsyncReceive_quiet s1 _)

/-- The operation `receive()` is quiet. -/
theorem quiet_receiveAny (s : TcpSocket) (d : DrainOutcome) :
    Quiet s (s.receiveAny d).2 := by
  unfold receiveAny
  split
  · exact quiet_of_same _ _ rfl rfl
  · obtain ⟨h1, h2⟩ := nonblockReceiveAvailable_quiet s d
    generalize s.nonblockReceiveAvailable d = p at h1 h2
    obtain ⟨s1, e⟩ := p
    simp only at h1 h2
    cases e with
    | some m => exact quiet_congr s s1 _ h1 h2 (quiet_handleError s1 m)
    | none => exact quiet_of_same _ _ h1 h2

/-- The operation `isEof` is quiet. -/
theorem quiet_isEof (s : TcpSocket) (p : PeekOutcome) : Quiet s (s.isEof p).2 := by
  unfold isEof
  split
  · exact quiet_of_same _ _ rfl rfl
  · split
    · exact quiet_of_same _ _ rfl rfl
    · cases p
      · exact quiet_handleError _ _
      · exact quiet_of_same _ _ rfl rfl
      · exact quiet_of_same _ _ rfl rfl
      · exact quiet_handleError _ _
      · exact quiet_of_same _ _ rfl rfl
  · exact quiet_of_same _ _ rfl rfl

/-- A receive completion is quiet. -/
theorem quiet_handleReceive (s : TcpSocket) (e : ErrorCode) (n : Nat) :
    Quiet s (s.handleReceive e n) := by
  unfold handleReceive
  cases e with
  | some m =>
    exact quiet_congr s { s with asyncReceiveInProgress_ := false } _ rfl rfl
      (quiet_handleError _ _)
  | none => exact quiet_of_same _ _ rfl rfl

/-- A quiet step keeps what is pending. -/
theorem keepsPending_of_quiet (s r : TcpSocket) (h : Quiet s r) : KeepsPending s r := by
  obtain ⟨h1, h2⟩ := h
  constructor
  · intro hr
    rcases h1 with h1 | h1
    · rw [← h1]; exact hr
    · rw [h1] at hr; cases hr
  · intro hr
    rcases h1 with h1 | h1
    · exact Or.inl ⟨by rw [← h1]; exact hr, h2⟩
    · rw [h1] at hr; cases hr

/-- The operation `send()` keeps what is pending. -/
theorem keepsPending_send (s : TcpSocket) : KeepsPending s s.send := by
  unfold KeepsPending
  cases hs : s.state_ <;> cases hf : s.asyncSendInProgress_ <;>
    simp [send, startAsyncSend, hs, hf]

/-- The operation `disconnect` keeps what is pending. -/
theorem keepsPending_disconnect (s : TcpSocket) (hard : Bool) (os : CloseOutcome) :
    KeepsPending s (s.disconnect hard os) := by
  unfold KeepsPending
  cases hs : s.state_ <;> cases hard <;> cases os <;> cases ho : s.socketOpen <;>
    cases hf : s.asyncSendInProgress_ <;>
    simp [disconnect, send, startAsyncSend, hs, ho, hf, handleError_eq]

/-- A send completion whose deferred close succeeds keeps what is pending. -/
theorem keepsPending_handleSend (s : TcpSocket) (e : ErrorCode) (k : Nat) :
    KeepsPending s (s.handleSend e k none) := by
  unfold KeepsPending
  by_cases hpos : 0 < s.sendbuffer_.committed.length - k <;>
    cases hs : s.state_ <;> cases e <;>
    simp [handleSend, startAsyncSend, hs, handleError_eq, SendBuffer.pop,
      SendBuffer.committedSize, hpos]

/-- A connect completion whose close succeeds is a connect step. -/
theorem connectStep_handleConnect (s : TcpSocket) (e : ErrorCode) (it : List Endpoint)
    (env : ConnectEnv) (hc : env.close = none) :
    ConnectStep s (s.handleConnect e it env) := by
  by_cases hg : s.state_ = TCPSOCK_CONNECTING ∨ s.state_ = TCPSOCK_CLOSING
  swap
  · have h : s.handleConnect e it env = s := by
      unfold handleConnect
      rw [if_neg hg]
    rw [h]
    constructor
    · intro hr
      exact absurd (Or.inl hr) hg
    · intro hr
      exact absurd (Or.inr hr) hg
  cases e with
  | some m =>
    cases it with
    | nil =>
      have h : s.handleConnect (some m) [] env = s.handleError m := by
        unfold handleConnect
        rw [if_pos hg]
      rw [h]
      constructor <;> intro hr <;> simp [handleError_eq] at hr
    | cons endpoint rest =>
      have h : s.handleConnect (some m) (endpoint :: rest) env
          = { s with socketOpen := env.opened
                     started := s.started ++ [AsyncOp.connect endpoint rest] } := by
        unfold handleConnect
        rw [if_pos hg]
        simp only [hc]
      rw [h]
      have hlog : connectsStarted
          { s with socketOpen := env.opened,
                   started := s.started ++ [AsyncOp.connect endpoint rest] }
          = connectsStarted s ++ [(endpoint, rest)] := by
        simp [connectsStarted, List.filterMap_append]
      exact ⟨fun _ => ⟨endpoint, rest, hlog⟩, fun _ => Or.inr ⟨endpoint, rest, hlog⟩⟩
  | none =>
    cases hn : env.nodelay with
    | some m =>
      have h : s.handleConnect none it env = s.handleError m := by
        simp [handleConnect, hg, hn, disableNagle, hasError, handleError_eq]
      rw [h]
      constructor <;> intro hr <;> simp [handleError_eq] at hr
    | none =>
      by_cases hpos : s.sendbuffer_.committedSize > 0
      · rcases hg with hg | hg
        · have h : s.handleConnect none it env
              = ({ s with state_ := TCPSOCK_CONNECTED }).startAsyncSend := by
            simp [handleConnect, hg, hn, disableNagle, hasError, hpos]
          rw [h]
          constructor <;> intro hr <;>
            cases hf : s.asyncSendInProgress_ <;> simp [startAsyncSend, hf] at hr
        · have h : s.handleConnect none it env = s.startAsyncSend := by
            simp [handleConnect, hg, hn, disableNagle, hasError, hpos]
          rw [h]
          constructor
          · intro hr
            cases hf : s.asyncSendInProgress_ <;> simp [startAsyncSend, hf, hg] at hr
          · intro _
            left
            cases hf : s.asyncSendInProgress_ <;> simp [startAsyncSend, hf]
      · rcases hg with hg | hg
        · have h : s.handleConnect none it env = { s with state_ := TCPSOCK_CONNECTED } := by
            simp [handleConnect, hg, hn, disableNagle, hasError, hpos]
          rw [h]
          constructor <;> intro hr <;> simp at hr
        · have h : s.handleConnect none it env
              = { s with socketOpen := false, state_ := TCPSOCK_CLOSED } := by
            simp [handleConnect, hg, hn, hc, disableNagle, hasError, hpos]
          rw [h]
          constructor <;> intro hr <;> simp at hr

/-- A resolve completion whose close succeeds is a connect step. -/
theorem connectStep_handleResolve (s : TcpSocket) (e : ErrorCode) (it : List Endpoint)
    (env : ConnectEnv) (hc : env.close = none) :
    ConnectStep s (s.handleResolve e it env) := by
  by_cases hg : s.state_ = TCPSOCK_CONNECTING ∨ s.state_ = TCPSOCK_CLOSING
  · cases e with
    | none =>
      have h : s.handleResolve none it env = s.handleConnect hostNotFound it env := by
        unfold handleResolve
        rw [if_pos hg]
      rw [h]
      exact connectStep_handleConnect s hostNotFound it env hc
    | some m =>
      have h : s.handleResolve (some m) it env = s.handleError m := by
        unfold handleResolve
        rw [if_pos hg]
      rw [h]
      constructor <;> intro hr <;> simp [handleError_eq] at hr
  · have h : s.handleResolve e it env = s := by
      unfold handleResolve
      rw [if_neg hg]
    rw [h]
    constructor
    · intro hr
      exact absurd (Or.inl hr) hg
    · intro hr
      exact absurd (Or.inr hr) hg

/-- A footprint starts no resolution and drops no connect attempt from the log. -/
theorem footprint_logs (s r : TcpSocket) (h : Footprint s r) :
    resolvesStarted r = resolvesStarted s ∧
    (connectsStarted s).length ≤ (connectsStarted r).length := by
  unfold resolvesStarted connectsStarted
  rcases h with ⟨h1, _, _⟩ | ⟨_, _, _, n, h4⟩ | ⟨_, _, _, i, k, h4⟩ | ⟨_, _, e, rest, h4⟩
  · rw [h1]
    exact ⟨rfl, le_refl _⟩
  · rw [h4]
    simp [List.countP_append, List.filterMap_append, AsyncOp.isResolve]
  · rw [h4]
    simp [List.countP_append, List.filterMap_append, AsyncOp.isResolve]
  · rw [h4]
    simp [List.countP_append, List.filterMap_append, AsyncOp.isResolve]

/-- A completion is to come exactly when a resolution or a connect attempt was
started and not completed. -/
theorem connectPending_iff (w : World) :
    w.connectPending = true ↔
      w.resolvesDone < resolvesStarted w.socket ∨
      w.connectsDone < (connectsStarted w.socket).length := by
  unfold World.connectPending World.outstandingResolves World.outstandingConnect
  cases hget : (connectsStarted w.socket)[w.connectsDone]? with
  | none =>
    have hle := List.getElem?_eq_none_iff.mp hget
    simp
    omega
  | some p =>
    have hlt : w.connectsDone < (connectsStarted w.socket).length := by
      by_contra hnot
      rw [List.getElem?_eq_none (by omega)] at hget
      cases hget
    simp [hlt]

/-- A step that keeps what is pending, starts no resolution and drops no connect
attempt, with the reactor's resolve and connect counts unchanged, strands
nothing. -/
theorem notStranded_of_keepsPending (w w2 : World) (h : w.NotStranded)
    (hr : w2.resolvesDone = w.resolvesDone) (hc : w2.connectsDone = w.connectsDone)
    (hk : KeepsPending w.socket w2.socket)
    (hl : resolvesStarted w2.socket = resolvesStarted w.socket ∧
      (connectsStarted w.socket).length ≤ (connectsStarted w2.socket).length) :
    w2.NotStranded := by
  obtain ⟨haux, hcon, hclo⟩ := h
  obtain ⟨hk1, hk2⟩ := hk
  obtain ⟨hl1, hl2⟩ := hl
  have hpend : w.connectPending = true → w2.connectPending = true := by
    intro hp
    rw [connectPending_iff] at hp ⊢
    rw [hr, hc, hl1]
    omega
  refine ⟨by omega, ?_, ?_⟩
  · intro hs
    exact hpend (hcon (hk1 hs))
  · intro hs
    rcases hk2 hs with ⟨h1, h2⟩ | h1 | h1
    · rcases hclo h1 with hp | hp
      · exact Or.inl (hpend hp)
      · exact Or.inr (by rw [h2]; exact hp)
    · exact Or.inl (hpend (hcon h1))
    · exact Or.inr h1

/-- A resolve or connect completion that can happen, counted by the reactor,
strands nothing. -/
theorem notStranded_of_connectStep (w w2 : World)
    (hc : w2.connectsDone ≤ (connectsStarted w.socket).length)
    (hk : ConnectStep w.socket w2.socket)
    (hl : (connectsStarted w.socket).length ≤ (connectsStarted w2.socket).length) :
    w2.NotStranded := by
  obtain ⟨hk1, hk2⟩ := hk
  have happ : (∃ e rest, connectsStarted w2.socket
      = connectsStarted w.socket ++ [(e, rest)]) → w2.connectPending = true := by
    rintro ⟨e, rest, hlog⟩
    rw [connectPending_iff]
    right
    rw [hlog, List.length_append]
    simp
    omega
  refine ⟨by omega, ?_, ?_⟩
  · intro hs
    exact happ (hk1 hs)
  · intro hs
    rcases hk2 hs with h1 | h1
    · exact Or.inr h1
    · exact Or.inl (happ h1)

/-- When no close performed by a completion handler throws, every step that can
happen strands nothing. -/
theorem notStranded_step (w : World) (a : Action) (h : w.NotStranded)
    (hen : w.enabled a = true) (hcalm : a.closeSucceeds = true) :
    (w.step a).NotStranded := by
  cases a with
  | write buffer =>
    exact notStranded_of_keepsPending w _ h rfl rfl
      (keepsPending_of_quiet _ _ (quiet_write w.socket buffer))
      (footprint_logs _ _ (footprint_write w.socket buffer))
  | setSendbufferLimit m =>
    exact notStranded_of_keepsPending w _ h rfl rfl
      (keepsPending_of_quiet _ _ (quiet_of_same _ _ rfl rfl)) ⟨rfl, le_refl _⟩
  | send =>
    exact notStranded_of_keepsPending w _ h rfl rfl (keepsPending_send w.socket)
      (footprint_logs _ _ (footprint_send w.socket))
  | receive n d =>
    exact notStranded_of_keepsPending w _ h rfl rfl
      (keepsPending_of_quiet _ _ (quiet_receive w.socket n d))
      (footprint_logs _ _ (footprint_receive w.socket n d))
  | receiveAny d =>
    exact notStranded_of_keepsPending w _ h rfl rfl
      (keepsPending_of_quiet _ _ (quiet_receiveAny w.socket d))
      (footprint_logs _ _ (footprint_receiveAny w.socket d))
  | isEof p =>
    exact notStranded_of_keepsPending w _ h rfl rfl
      (keepsPending_of_quiet _ _ (quiet_isEof w.socket p))
      (footprint_logs _ _ (footprint_isEof w.socket p))
  | disconnect hard os =>
    exact notStranded_of_keepsPending w _ h rfl rfl
      (keepsPending_disconnect w.socket hard os)
      (footprint_logs _ _ (footprint_disconnect w.socket hard os))
  | handleSend e k close =>
    have hclose : close = none := by
      cases close with
      | none => rfl
      | some m => simp [Action.closeSucceeds] at hcalm
    subst hclose
    have hl := footprint_logs _ _ (footprint_handleSend w.socket e k none)
    exact notStranded_of_keepsPending w _ h rfl rfl
      (keepsPending_handleSend w.socket e k) hl
  | handleReceive e n =>
    have hl := footprint_logs _ _ (footprint_handleReceive w.socket e n)
    exact notStranded_of_keepsPending w _ h rfl rfl
      (keepsPending_of_quiet _ _ (quiet_handleReceive w.socket e n)) hl
  | asyncReadFill i d =>
    exact notStranded_of_keepsPending w _ h rfl rfl
      (keepsPending_of_quiet _ _ (quiet_of_same _ _ rfl rfl)) ⟨rfl, le_refl _⟩
  | handleResolve e it env =>
    have hclose : env.close = none := by
      cases hc : env.close with
      | none => rfl
      | some m => simp [Action.closeSucceeds, hc] at hcalm
    exact notStranded_of_connectStep w _ h.1
      (connectStep_handleResolve w.socket e it env hclose)
      (footprint_logs _ _ (footprint_handleResolve w.socket e it env)).2
  | handleConnect e it env =>
    have hclose : env.close = none := by
      cases hc : env.close with
      | none => rfl
      | some m => simp [Action.closeSucceeds, hc] at hcalm
    have hlt : w.connectsDone < (connectsStarted w.socket).length := by
      by_contra hnot
      have hnone : (connectsStarted w.socket)[w.connectsDone]? = none :=
        List.getElem?_eq_none (by omega)
      simp [World.enabled, World.outstandingConnect, hnone] at hen
    exact notStranded_of_connectStep w _ hlt
      (connectStep_handleConnect w.socket e it env hclose)
      (footprint_logs _ _ (footprint_handleConnect w.socket e it env)).2

/-- When no close performed by a completion handler throws, nothing is stranded
in any world that can arise. -/
theorem reachableCalm_notStranded (w : World) (h : World.ReachableCalm w) :
    w.NotStranded := by
  induction h with
  | connectTo =>
    refine ⟨Nat.zero_le _, fun _ => by decide, fun hs => ?_⟩
    exact absurd hs (by decide)
  | fromConnectedSocket nodelay =>
    cases nodelay with
    | none =>
      refine ⟨Nat.zero_le _, fun hs => absurd hs (by decide), fun hs => absurd hs (by decide)⟩
    | some m =>
      refine ⟨Nat.zero_le _, fun hs => ?_, fun hs => ?_⟩ <;>
        simp [World.start, fromConnectedSocket, disableNagle, handleError_eq] at hs
  | error message =>
    refine ⟨Nat.zero_le _, fun hs => ?_, fun hs => ?_⟩ <;>
      simp [World.start, TcpSocket.error, mk0] at hs
  | step w a _ hen hcalm ih => exact notStranded_step w a ih hen hcalm

/-- A world that can arise without a throwing close can arise. -/
theorem reachableCalm_reachable (w : World) (h : World.ReachableCalm w) :
    World.Reachable w := by
  induction h with
  | connectTo => exact World.Reachable.connectTo
  | fromConnectedSocket nodelay => exact World.Reachable.fromConnectedSocket nodelay
  | error message => exact World.Reachable.error message
  | step w a _ hen _ ih => exact World.Reachable.step w a ih hen

/-- When no close performed by a completion handler throws, a deferred close is
never stranded: in every world that can arise from a factory-made socket whose
flags start false, a socket in CLOSING has a resolve or connect completion to
come, or its send flag is set and exactly one transmit is outstanding. -/
theorem deferred_close_not_stranded_when_calm (w : World) (h : World.ReachableCalm w)
    (hclosing : w.socket.state_ = TCPSOCK_CLOSING) :
    w.connectPending = true ∨
    (w.socket.asyncSendInProgress_ = true ∧ w.outstandingSends = 1) := by
  rcases (reachableCalm_notStranded w h).2.2 hclosing with hp | hp
  · exact Or.inl hp
  · right
    refine ⟨hp, ?_⟩
    obtain ⟨hsend, _⟩ := reachable_flagsMatch w (reachableCalm_reachable w h)
    rw [hp] at hsend
    simp at hsend
    unfold World.outstandingSends
    omega

/-- A soft disconnect of an idle connected socket: with an empty send buffer and
no send in flight, `disconnect(false)` starts a transmit of zero bytes and
leaves the state CLOSING; its successful completion with zero bytes transferred
moves the socket to CLOSED when the close succeeds. -/
theorem soft_disconnect_idle_closes (s : TcpSocket) (os : CloseOutcome)
    (hstate : s.state_ = TCPSOCK_CONNECTED) (hempty : s.sendbuffer_ = SendBuffer.empty)
    (hidle : s.asyncSendInProgress_ = false) :
    (s.disconnect false os).state_ = TCPSOCK_CLOSING ∧
    (s.disconnect false os).started = s.started ++ [AsyncOp.writeSome 0] ∧
    (s.disconnect false os).asyncSendInProgress_ = true ∧
    ((s.disconnect false os).handleSend none 0 none).state_ = TCPSOCK_CLOSED := by
  simp [disconnect, send, startAsyncSend, handleSend, hstate, hempty, hidle,
    SendBuffer.commit, SendBuffer.empty, SendBuffer.committedSize, SendBuffer.pop]

/-- A connect completion leaves a socket CONNECTING only if it was, and then
leaves the send flag. -/
theorem connecting_kept_handleConnect (s : TcpSocket) (e : ErrorCode) (it : List Endpoint)
    (env : ConnectEnv) (hr : (s.handleConnect e it env).state_ = TCPSOCK_CONNECTING) :
    s.state_ = TCPSOCK_CONNECTING ∧
    (s.handleConnect e it env).asyncSendInProgress_ = s.asyncSendInProgress_ := by
  revert hr
  by_cases hpos : s.sendbuffer_.committedSize > 0 <;>
    cases hs : s.state_ <;> cases e <;> cases it <;> cases hn : env.nodelay <;>
    cases hc : env.close <;> cases hf : s.asyncSendInProgress_ <;>
    simp [handleConnect, disableNagle, hasError, startAsyncSend, handleError_eq, hs, hn,
      hc, hf, hpos]

/-- A resolve completion leaves a socket CONNECTING only if it was, and then
leaves the send flag. -/
theorem connecting_kept_handleResolve (s : TcpSocket) (e : ErrorCode) (it : List Endpoint)
    (env : ConnectEnv) (hr : (s.handleResolve e it env).state_ = TCPSOCK_CONNECTING) :
    s.state_ = TCPSOCK_CONNECTING ∧
    (s.handleResolve e it env).asyncSendInProgress_ = s.asyncSendInProgress_ := by
  by_cases hg : s.state_ = TCPSOCK_CONNECTING ∨ s.state_ = TCPSOCK_CLOSING
  · cases e with
    | none =>
      have h : s.handleResolve none it env = s.handleConnect hostNotFound it env := by
        unfold handleResolve
        rw [if_pos hg]
      rw [h] at hr ⊢
      exact connecting_kept_handleConnect s hostNotFound it env hr
    | some m =>
      have h : s.handleResolve (some m) it env = s.handleError m := by
        unfold handleResolve
        rw [if_pos hg]
      rw [h] at hr
      simp [handleError_eq] at hr
  · have h : s.handleResolve e it env = s := by
      unfold handleResolve
      rw [if_neg hg]
    rw [h] at hr ⊢
    exact ⟨hr, rfl⟩

/-- No step enters CONNECTING, and a step that stays there leaves the send flag
or clears it. -/
theorem connecting_keeps_flag (s : TcpSocket) (a : Action)
    (hr : (a.apply s).state_ = TCPSOCK_CONNECTING) :
    s.state_ = TCPSOCK_CONNECTING ∧
    ((a.apply s).asyncSendInProgress_ = s.asyncSendInProgress_ ∨
      (a.apply s).asyncSendInProgress_ = false) := by
  have hquiet : ∀ r : TcpSocket, Quiet s r → r.state_ = TCPSOCK_CONNECTING →
      s.state_ = TCPSOCK_CONNECTING ∧
      (r.asyncSendInProgress_ = s.asyncSendInProgress_ ∨ r.asyncSendInProgress_ = false) := by
    intro r hq hrs
    exact ⟨(keepsPending_of_quiet s r hq).1 hrs, Or.inl hq.2⟩
  cases a with
  | write buffer => exact hquiet _ (quiet_write s buffer) hr
  | setSendbufferLimit m => exact hquiet _ (quiet_of_same _ _ rfl rfl) hr
  | send =>
    revert hr
    cases hs : s.state_ <;> cases hf : s.asyncSendInProgress_ <;>
      simp [Action.apply, send, startAsyncSend, hs, hf]
  | receive n d => exact hquiet _ (quiet_receive s n d) hr
  | receiveAny d => exact hquiet _ (quiet_receiveAny s d) hr
  | isEof p => exact hquiet _ (quiet_isEof s p) hr
  | disconnect hard os =>
    revert hr
    cases hs : s.state_ <;> cases hard <;> cases os <;> cases ho : s.socketOpen <;>
      cases hf : s.asyncSendInProgress_ <;>
      simp [Action.apply, disconnect, send, startAsyncSend, hs, ho, hf, handleError_eq]
  | handleResolve e it env =>
    obtain ⟨h1, h2⟩ := connecting_kept_handleResolve s e it env hr
    exact ⟨h1, Or.inl h2⟩
  | handleConnect e it env =>
    obtain ⟨h1, h2⟩ := connecting_kept_handleConnect s e it env hr
    exact ⟨h1, Or.inl h2⟩
  | handleSend e k close =>
    revert hr
    by_cases hpos : 0 < s.sendbuffer_.committed.length - k <;>
      cases hs : s.state_ <;> cases e <;> cases close <;>
      simp [Action.apply, handleSend, startAsyncSend, hs, handleError_eq, SendBuffer.pop,
        SendBuffer.committedSize, hpos]
  | handleReceive e n => exact hquiet _ (quiet_handleReceive s e n) hr
  | asyncReadFill i d => exact hquiet _ (quiet_of_same _ _ rfl rfl) hr

/-- When the in-flight flags start false, a socket that is still CONNECTING has
its send flag clear. -/
theorem connecting_send_flag_clear (w : World) (h : World.Reachable w)
    (hs : w.socket.state_ = TCPSOCK_CONNECTING) :
    w.socket.asyncSendInProgress_ = false := by
  induction h with
  | connectTo => rfl
  | fromConnectedSocket nodelay =>
    cases nodelay with
    | none => rfl
    | some m => simp [World.start, fromConnectedSocket, disableNagle, handleError_eq, mk0]
  | error message => rfl
  | step w a _ _ ih =>
    have hstep : (w.step a).socket = a.apply w.socket := by
      cases a <;> rfl
    rw [hstep] at hs ⊢
    obtain ⟨h1, h2⟩ := connecting_keeps_flag w.socket a hs
    rcases h2 with h2 | h2
    · rw [h2]
      exact ih h1
    · exact h2

/-- When the in-flight flags start false, the connect success of a socket that
is still CONNECTING (with setting no-delay succeeding) makes it CONNECTED and
starts a transmit of the committed region if and only if that region is
non-empty. -/
theorem connect_success_starts_transmit_iff (w : World) (h : World.Reachable w)
    (hs : w.socket.state_ = TCPSOCK_CONNECTING) (it : List Endpoint) (env : ConnectEnv)
    (hn : env.nodelay = none) :
    (w.socket.handleConnect none it env).state_ = TCPSOCK_CONNECTED ∧
    ((w.socket.handleConnect none it env).started
        = w.socket.started ++ [AsyncOp.writeSome w.socket.sendbuffer_.committedSize] ↔
      w.socket.sendbuffer_.committed ≠ []) ∧
    (w.socket.sendbuffer_.committed = [] →
      (w.socket.handleConnect none it env).started = w.socket.started) := by
  have hflag := connecting_send_flag_clear w h hs
  obtain ⟨hstate, hyes, hno⟩ := (send_then_connect w.socket).2.1 hs it env hn
  refine ⟨hstate, ⟨?_, ?_⟩, ?_⟩
  · intro hstarted
    by_contra hempty
    have hsame := (hno (fun hc => hc.1 hempty)).1
    rw [hsame] at hstarted
    have hlen := congrArg List.length hstarted
    simp at hlen
  · intro hne
    exact (hyes ⟨hne, hflag⟩).1
  · intro hempty
    exact (hno (fun hc => hc.1 hempty)).1

end Faucet
